import Mathlib

/-!
# Verification of the `mai_amortizacao` amortization engine

Shallow embedding, over exact rationals `ℚ`, of the two amortization engines of
the repository:

* `src/lib/financeUtils.ts` — `calculateAmortization`, `calculateAmortizationBase`
  and the bisection solver `calculateExtraNeeded`;
* `src/lib/engine.ts` — `FinanceEngine.calculateAmortizationSchedule` and
  `FinanceEngine.compareScenarios`.

JavaScript `number`s are modelled as exact rationals.  The only places where the
source computes an irrational value are the annual→monthly rate conversions of
`engine.ts` (`Math.pow(1 + annual/100, 1/12) - 1`) and the monthly appreciation
conversion of `financeUtils.ts`; those converted *monthly* rates are taken as
parameters of the embedding (fields whose doc comments say so below), so every
simulation quantity is an exact rational and all results are stated for
arbitrary values of the converted rates.  JavaScript division by zero yields
`NaN`/`Infinity`; in `ℚ` the Lean convention `x / 0 = 0` applies.  The single
place where this matters (the PRICE annuity formula at a zero interest rate) is
treated explicitly in the development below.

`for`-loops with `break` are modelled as structural recursion on the remaining
number of iterations; sparse JavaScript records (`{ [month: number]: number }`,
lookup defaulting to `0`) are modelled as total functions `ℕ → ℚ`.
-/

namespace Mai

/-- `financeUtils.ts` line 1: `export type AmortizationType = 'SAC' | 'PRICE'`
(also `engine.ts` line 1, `AmortizationSystem`, with the same two values). -/
inductive AmortizationType
  | SAC
  | PRICE
deriving DecidableEq, Inhabited

/-! ## `financeUtils.ts` -/

/-- `financeUtils.ts` lines 22-26, `FGTSConfig`. -/
structure FGTSConfig where
  initialBalance : ℚ
  monthlyGrossIncome : ℚ
  useEveryTwoYears : Bool
deriving DecidableEq, Inhabited

/-- `financeUtils.ts` lines 3-11, `Installment`. -/
structure Installment where
  month : ℕ
  initialBalance : ℚ
  payment : ℚ
  interest : ℚ
  amortization : ℚ
  extraAmortization : ℚ
  balance : ℚ
deriving DecidableEq, Inhabited

/-- `financeUtils.ts` lines 13-20, `CalculationResult`.  `monthsReduced` is the
difference `termMonths - installments.length`, which is modelled in `ℤ`. -/
structure CalculationResult where
  installments : List Installment
  totalPaid : ℚ
  totalInterest : ℚ
  monthsReduced : ℤ
  totalSaved : ℚ
  finalPropertyValue : ℚ

/-- The positional parameters of `calculateAmortization`
(`financeUtils.ts` lines 28-38), bundled into a record.
`monthlyAppreciationRate` stands for the converted monthly appreciation rate:
the source takes an *annual* `appreciationRate` (default `5`) and computes
`(1 + appreciationRate / 100) ** (1 / 12) - 1` (line 40), an irrational real;
the embedding takes that converted monthly value as the parameter.  It is used
only for `currentPropertyValue`, which influences no installment field. -/
structure FUParams where
  propertyValue : ℚ
  loanAmount : ℚ
  annualInterestRate : ℚ
  termMonths : ℕ
  type : AmortizationType
  monthlyExtra : ℚ
  oneTimeExtras : ℕ → ℚ
  monthlyAppreciationRate : ℚ
  fgts : FGTSConfig

/-- `financeUtils.ts` line 39: `annualInterestRate / 100 / 12` (flat division,
deliberately not compounded in this engine variant). -/
def monthlyInterestRate (p : FUParams) : ℚ :=
  p.annualInterestRate / 100 / 12

/-- `financeUtils.ts` line 49: `fgts.monthlyGrossIncome * 0.08`. -/
def monthlyFGTSDeposit (p : FUParams) : ℚ :=
  p.fgts.monthlyGrossIncome * (8 / 100)

/-- `financeUtils.ts` lines 53-55: the fixed PRICE payment
`loanAmount * (i * (1 + i)^n) / ((1 + i)^n - 1)` with `n = termMonths`,
`i` the monthly rate.  There is no special case for `i = 0`: the source then
computes `0 / 0` (JavaScript `NaN`); in `ℚ` the value is `0`. -/
def fixedPricePayment (p : FUParams) : ℚ :=
  let n := p.termMonths
  let i := monthlyInterestRate p
  p.loanAmount * (i * (1 + i) ^ n) / ((1 + i) ^ n - 1)

/-- The mutable state of the `calculateAmortization` loop
(`financeUtils.ts` lines 41-48), minus the growing `installments` array,
which the loop embedding returns separately. -/
structure FUCore where
  currentBalance : ℚ
  currentPropertyValue : ℚ
  totalPaid : ℚ
  totalInterest : ℚ
  currentFGTSBalance : ℚ
deriving DecidableEq

/-- One iteration of the `calculateAmortization` loop body
(`financeUtils.ts` lines 60-105) at month `month`: produces the pushed
`Installment` and the updated state. -/
def fuStep (p : FUParams) (month : ℕ) (c : FUCore) : Installment × FUCore :=
  -- line 61: accrue FGTS
  let fgts1 := c.currentFGTSBalance + monthlyFGTSDeposit p
  -- line 63
  let interest := c.currentBalance * monthlyInterestRate p
  -- lines 67-73
  let amortization0 : ℚ :=
    match p.type with
    | .SAC => p.loanAmount / (p.termMonths : ℚ)
    | .PRICE => fixedPricePayment p - interest
  let payment0 : ℚ :=
    match p.type with
    | .SAC => amortization0 + interest
    | .PRICE => fixedPricePayment p
  -- lines 76-79: ensure amortization does not exceed balance
  let amortization := if amortization0 > c.currentBalance then c.currentBalance else amortization0
  let payment := if amortization0 > c.currentBalance then c.currentBalance + interest else payment0
  -- line 81
  let extra0 := p.monthlyExtra + p.oneTimeExtras month
  -- lines 84-87: FGTS application every 24 months, wallet reset afterwards
  let useFgts : Prop := p.fgts.useEveryTwoYears = true ∧ month % 24 = 0
  let extra := if useFgts then extra0 + fgts1 else extra0
  let fgts2 := if useFgts then 0 else fgts1
  -- line 89
  let actualExtra := min extra (c.currentBalance - amortization)
  -- lines 91-95
  let newBalance := c.currentBalance - (amortization + actualExtra)
  ({ month := month
     initialBalance := c.currentBalance
     payment := payment + actualExtra
     interest := interest
     amortization := amortization
     extraAmortization := actualExtra
     balance := max 0 newBalance },
   { currentBalance := newBalance
     currentPropertyValue := c.currentPropertyValue * (1 + p.monthlyAppreciationRate)
     totalPaid := c.totalPaid + (payment + actualExtra)
     totalInterest := c.totalInterest + interest
     currentFGTSBalance := fgts2 })

/-- The `calculateAmortization` loop (`financeUtils.ts` lines 57-106):
`for (month = 1; month <= termMonths; month++) { if (currentBalance <= 0) break; ... }`,
as structural recursion on the number of remaining iterations. -/
def fuLoop (p : FUParams) : ℕ → ℕ → FUCore → List Installment × FUCore
  | 0, _, c => ([], c)
  | fuel + 1, month, c =>
    if c.currentBalance ≤ 0 then ([], c)
    else
      let sc := fuStep p month c
      let rest := fuLoop p fuel (month + 1) sc.2
      (sc.1 :: rest.1, rest.2)

/-- One iteration of the `calculateAmortizationBase` loop, balance part
(`financeUtils.ts` lines 138-142): `i` the monthly rate, `pmt` the fixed PRICE
payment, `amortSAC` the constant SAC amortization `loanAmount / termMonths`. -/
def baseStepBal (i pmt amortSAC : ℚ) (ty : AmortizationType) (b : ℚ) : ℚ :=
  let interest := b * i
  let amortization0 : ℚ :=
    match ty with
    | .SAC => amortSAC
    | .PRICE => pmt - interest
  let amortization := if amortization0 > b then b else amortization0
  b - amortization

/-- The `calculateAmortizationBase` loop (`financeUtils.ts` lines 137-145):
accumulates `totalInterest`; the break test `currentBalance <= 0` comes *after*
the month is accounted (unlike the main loop, which breaks before). -/
def baseLoop (i pmt amortSAC : ℚ) (ty : AmortizationType) : ℕ → ℚ → ℚ → ℚ
  | 0, _, totalInterest => totalInterest
  | fuel + 1, b, totalInterest =>
    let interest := b * i
    let b1 := baseStepBal i pmt amortSAC ty b
    let totalInterest1 := totalInterest + interest
    if b1 ≤ 0 then totalInterest1
    else baseLoop i pmt amortSAC ty fuel b1 totalInterest1

/-- `financeUtils.ts` lines 123-148, `calculateAmortizationBase`: the baseline
run with no extra payments; returns its `totalInterest` field. -/
def calculateAmortizationBase (loanAmount annualInterestRate : ℚ)
    (termMonths : ℕ) (ty : AmortizationType) : ℚ :=
  let i := annualInterestRate / 100 / 12
  let pmt := loanAmount * (i * (1 + i) ^ termMonths) / ((1 + i) ^ termMonths - 1)
  baseLoop i pmt (loanAmount / (termMonths : ℚ)) ty termMonths loanAmount 0

/-- The initial loop state of `calculateAmortization`
(`financeUtils.ts` lines 42-48). -/
def initCore (p : FUParams) : FUCore :=
  { currentBalance := p.loanAmount
    currentPropertyValue := p.propertyValue
    totalPaid := 0
    totalInterest := 0
    currentFGTSBalance := p.fgts.initialBalance }

/-- `financeUtils.ts` lines 28-121, `calculateAmortization`. -/
def calculateAmortization (p : FUParams) : CalculationResult :=
  let r := fuLoop p p.termMonths 1 (initCore p)
  let baseTotalInterest :=
    calculateAmortizationBase p.loanAmount p.annualInterestRate p.termMonths p.type
  { installments := r.1
    totalPaid := r.2.totalPaid
    totalInterest := r.2.totalInterest
    monthsReduced := (p.termMonths : ℤ) - r.1.length
    totalSaved := baseTotalInterest - r.2.totalInterest
    finalPropertyValue := r.2.currentPropertyValue }

/-- The parameter record the solver passes to `calculateAmortization`
(`financeUtils.ts` line 164): positional arguments plus the defaults for
`oneTimeExtras` (`{}`), `appreciationRate` (`5`, converted monthly value
irrelevant to installments, taken as `0` here — see `FUParams`) and `fgts`
(all-zero, disabled). -/
def solverParams (propertyValue loanAmount annualInterestRate : ℚ)
    (termMonths : ℕ) (ty : AmortizationType) (extra : ℚ) : FUParams :=
  { propertyValue := propertyValue
    loanAmount := loanAmount
    annualInterestRate := annualInterestRate
    termMonths := termMonths
    type := ty
    monthlyExtra := extra
    oneTimeExtras := fun _ => 0
    monthlyAppreciationRate := 0
    fgts := { initialBalance := 0, monthlyGrossIncome := 0, useEveryTwoYears := false } }

/-- The bisection loop of `calculateExtraNeeded`
(`financeUtils.ts` lines 162-170), recursion on the remaining iteration count;
returns the final `(low, high)` pair. -/
def bisectLoop (propertyValue loanAmount annualInterestRate : ℚ)
    (termMonths : ℕ) (ty : AmortizationType) (targetMonths : ℕ) :
    ℕ → ℚ → ℚ → ℚ × ℚ
  | 0, low, high => (low, high)
  | k + 1, low, high =>
    let extra := (low + high) / 2
    let result := calculateAmortization
      (solverParams propertyValue loanAmount annualInterestRate termMonths ty extra)
    if result.installments.length > targetMonths then
      bisectLoop propertyValue loanAmount annualInterestRate termMonths ty targetMonths k extra high
    else
      bisectLoop propertyValue loanAmount annualInterestRate termMonths ty targetMonths k low extra

/-- `financeUtils.ts` lines 150-173, `calculateExtraNeeded`: 20 bisection
iterations over `extra ∈ [0, loanAmount]`, returning the final upper bound. -/
def calculateExtraNeeded (propertyValue loanAmount annualInterestRate : ℚ)
    (termMonths : ℕ) (ty : AmortizationType) (targetMonths : ℕ) : ℚ :=
  (bisectLoop propertyValue loanAmount annualInterestRate termMonths ty targetMonths
    20 0 loanAmount).2

/-! ## `engine.ts` -/

/-- `engine.ts` line 24: `strategyType`. -/
inductive StrategyType
  | REDUCE_TERM
  | REDUCE_INSTALLMENT
deriving DecidableEq, Inhabited

/-- `engine.ts` lines 3-25, `SimulationParams`.  The source stores the four
annual percentage rates and converts each to a monthly rate by compounding,
`Math.pow(1 + annual / 100, 1 / 12) - 1` (lines 83-84 and 200-201), an
irrational real; the embedding takes the four converted monthly rates as the
parameters `monthlyRate`, `monthlyAppreciation`, `monthlyInvRate` and
`monthlyRentAdj`. -/
structure SimulationParams where
  propertyValue : ℚ
  downPayment : ℚ
  originalTermYears : ℕ
  /-- converted `interestRateAnnual` (line 83) -/
  monthlyRate : ℚ
  amortizationSystem : AmortizationType
  insuranceRateMIP : ℚ
  insuranceRateDFI : ℚ
  adminFeeMonthly : ℚ
  /-- converted `propertyAppreciationAnnual` (line 84) -/
  monthlyAppreciation : ℚ
  /-- converted `investmentBenchmarkAnnual` (line 200) -/
  monthlyInvRate : ℚ
  /-- converted `inflationAnnual` (line 201) -/
  monthlyRentAdj : ℚ
  rentEstimateMonthly : ℚ
  extraAmortizationMonthly : ℚ
  extraAmortizationLumpSums : ℕ → ℚ
  strategyType : StrategyType

/-- `engine.ts` lines 27-52, `MonthlyInstallment`. -/
structure MonthlyInstallment where
  month : ℕ
  year : ℕ
  initialBalance : ℚ
  finalBalance : ℚ
  interest : ℚ
  amortization : ℚ
  extraAmortization : ℚ
  insuranceMIP : ℚ
  insuranceDFI : ℚ
  adminFee : ℚ
  totalPayment : ℚ
  totalCashFlow : ℚ
  propertyValue : ℚ
  netEquity : ℚ
deriving DecidableEq, Inhabited

/-- `engine.ts` line 66: `financiallyBetter: 'BUY' | 'RENT_INVEST'`. -/
inductive Winner
  | BUY
  | RENT_INVEST
deriving DecidableEq, Inhabited

/-- `engine.ts` lines 55-59. -/
structure BuyScenario where
  totalPaid : ℚ
  finalNetEquity : ℚ
  installments : List MonthlyInstallment

/-- `engine.ts` lines 60-64. -/
structure InvestScenario where
  totalRentPaid : ℚ
  finalInvestedAmount : ℚ
  netEquity : ℚ

/-- `engine.ts` lines 65-69.  `breakEvenMonth: number | null` is an `Option`. -/
structure Decision where
  financiallyBetter : Winner
  difference : ℚ
  breakEvenMonth : Option ℕ

/-- `engine.ts` lines 54-70, `ComparisonResult`. -/
structure ComparisonResult where
  buyScenario : BuyScenario
  investScenario : InvestScenario
  decision : Decision

/-- `engine.ts` line 85: `originalTermYears * 12`. -/
def totalMonths (p : SimulationParams) : ℕ :=
  p.originalTermYears * 12

/-- `engine.ts` lines 78-80: `propertyValue - downPayment`. -/
def loanAmount (p : SimulationParams) : ℚ :=
  p.propertyValue - p.downPayment

/-- `engine.ts` lines 92-95: the fixed PRICE payment over the original term
(`0` for SAC, as initialized on line 92). -/
def initialPricePMT (p : SimulationParams) : ℚ :=
  if p.amortizationSystem = .PRICE then
    loanAmount p * (p.monthlyRate * (1 + p.monthlyRate) ^ totalMonths p) /
      ((1 + p.monthlyRate) ^ totalMonths p - 1)
  else 0

/-- One iteration of the `calculateAmortizationSchedule` loop body
(`engine.ts` lines 100-187) at month `month`: produces the pushed installment
and the updated `(balance, propertyValue)` pair. -/
def engStep (p : SimulationParams) (month : ℕ) (balance propV : ℚ) :
    MonthlyInstallment × ℚ × ℚ :=
  -- line 100: `Math.ceil(month / 12)`
  let year := (month + 11) / 12
  let initialBalance := balance
  -- line 104
  let interest := initialBalance * p.monthlyRate
  -- lines 110-135: amortization and regular payment by system
  let ar : ℚ × ℚ :=
    match p.amortizationSystem with
    | .SAC =>
      let a := loanAmount p / (totalMonths p : ℚ)
      (a, a + interest)
    | .PRICE =>
      let pmt :=
        if p.strategyType = .REDUCE_INSTALLMENT then
          -- lines 128-129: recompute over the remaining term and current balance
          let remainingMonths := totalMonths p - month + 1
          initialBalance * (p.monthlyRate * (1 + p.monthlyRate) ^ remainingMonths) /
            ((1 + p.monthlyRate) ^ remainingMonths - 1)
        else initialPricePMT p
      -- line 134: negative amortization protection
      (max (pmt - interest) 0, pmt)
  -- lines 138-141: cap amortization at balance
  let amortization := if ar.1 > balance then balance else ar.1
  let regularPayment := if ar.1 > balance then balance + interest else ar.2
  -- lines 143-154: fees
  let mip := initialBalance * p.insuranceRateMIP
  let dfi := p.propertyValue * p.insuranceRateDFI
  let adminFee := p.adminFeeMonthly
  let fullPayment := regularPayment + mip + dfi + adminFee
  -- lines 156-164: extra amortization, capped at remaining balance
  let extra0 := p.extraAmortizationMonthly + p.extraAmortizationLumpSums month
  let extraAmort := if extra0 > balance - amortization then balance - amortization else extra0
  -- lines 166-170: state update, floored at zero
  let balance1 := balance - (amortization + extraAmort)
  let balance2 := if balance1 < 0 then 0 else balance1
  let propV1 := propV * (1 + p.monthlyAppreciation)
  ({ month := month
     year := year
     initialBalance := initialBalance
     finalBalance := balance2
     interest := interest
     amortization := amortization
     extraAmortization := extraAmort
     insuranceMIP := mip
     insuranceDFI := dfi
     adminFee := adminFee
     totalPayment := fullPayment
     totalCashFlow := fullPayment + extraAmort
     propertyValue := propV1
     netEquity := propV1 - balance2 },
   balance2, propV1)

/-- The `calculateAmortizationSchedule` loop (`engine.ts` lines 97-188):
`for (month = 1; month <= totalMonths; month++) { if (balance <= 0.01) break; ... }`. -/
def engLoop (p : SimulationParams) : ℕ → ℕ → ℚ → ℚ → List MonthlyInstallment
  | 0, _, _, _ => []
  | fuel + 1, month, balance, propV =>
    if balance ≤ 1 / 100 then []
    else
      let r := engStep p month balance propV
      r.1 :: engLoop p fuel (month + 1) r.2.1 r.2.2

/-- `engine.ts` lines 74-191, `FinanceEngine.calculateAmortizationSchedule`. -/
def calculateAmortizationSchedule (p : SimulationParams) : List MonthlyInstallment :=
  engLoop p (totalMonths p) 1 (loanAmount p) p.propertyValue

/-- The investment-scenario loop of `compareScenarios`
(`engine.ts` lines 241-280): state `(investedEquity, currentRent, totalRentPaid)`,
index `idx` starting at `0`; returns `(investedEquity, totalRentPaid)`. -/
def invLoop (p : SimulationParams) (sched : List MonthlyInstallment) :
    ℕ → ℕ → ℚ → ℚ → ℚ → ℚ × ℚ
  | 0, _, inv, _, totalRentPaid => (inv, totalRentPaid)
  | fuel + 1, idx, inv, rent, totalRentPaid =>
    -- line 243: advance investment with interest
    let inv1 := inv * (1 + p.monthlyInvRate)
    -- line 246: `i < buySchedule.length ? buySchedule[i].totalCashFlow : 0`
    let buyCost :=
      match sched[idx]? with
      | some inst => inst.totalCashFlow
      | none => 0
    -- lines 266-276
    let totalRentPaid1 := totalRentPaid + rent
    let inv2 := inv1 + (buyCost - rent)
    -- line 279
    invLoop p sched fuel (idx + 1) inv2 (rent * (1 + p.monthlyRentAdj)) totalRentPaid1

/-- `engine.ts` lines 193-311, `FinanceEngine.compareScenarios`.  On an empty
schedule the source dereferences `undefined` (line 285), a runtime `TypeError`;
the embedding returns `none` there.  The property-value continuation
(line 289) computes `Math.pow(1 + annual / 100, monthsSincePayoff / 12)`, which
in exact real arithmetic equals `(1 + monthlyAppreciation) ^ monthsSincePayoff`
for the converted monthly rate; the embedding uses the latter form. -/
def compareScenarios (p : SimulationParams) (buySchedule : List MonthlyInstallment) :
    Option ComparisonResult :=
  let maxMonths := totalMonths p
  let r := invLoop p buySchedule maxMonths 0 p.downPayment p.rentEstimateMonthly 0
  let investedEquity := r.1
  let totalRentPaid := r.2
  match buySchedule.getLast? with
  | none => none
  | some lastInstallment =>
    let monthsSincePayoff := maxMonths - lastInstallment.month
    let finalPropValue :=
      if 0 < monthsSincePayoff then
        lastInstallment.propertyValue * (1 + p.monthlyAppreciation) ^ monthsSincePayoff
      else lastInstallment.propertyValue
    let finalEquityBuy := finalPropValue
    some
      { buyScenario :=
          { totalPaid := (buySchedule.map (·.totalCashFlow)).sum
            finalNetEquity := finalEquityBuy
            installments := buySchedule }
        investScenario :=
          { totalRentPaid := totalRentPaid
            finalInvestedAmount := investedEquity
            netEquity := investedEquity }
        decision :=
          { financiallyBetter := if investedEquity < finalEquityBuy then .BUY else .RENT_INVEST
            difference := |finalEquityBuy - investedEquity|
            breakEvenMonth := none } }

/-! ## One-step evaluation lemmas

Numeral-friendly restatements of the loop equations (the defining equations
match on `0`/`fuel + 1` and do not fire on numeral literals). -/

theorem fuLoop_eval (p : FUParams) (n month : ℕ) (c : FUCore) :
    fuLoop p n month c =
      if n = 0 then ([], c)
      else if c.currentBalance ≤ 0 then ([], c)
      else ((fuStep p month c).1 :: (fuLoop p (n - 1) (month + 1) (fuStep p month c).2).1,
            (fuLoop p (n - 1) (month + 1) (fuStep p month c).2).2) := by
  cases n <;> simp [fuLoop]

theorem baseLoop_eval (i pmt amortSAC : ℚ) (ty : AmortizationType) (n : ℕ) (b tI : ℚ) :
    baseLoop i pmt amortSAC ty n b tI =
      if n = 0 then tI
      else if baseStepBal i pmt amortSAC ty b ≤ 0 then tI + b * i
      else baseLoop i pmt amortSAC ty (n - 1) (baseStepBal i pmt amortSAC ty b) (tI + b * i) := by
  cases n <;> simp [baseLoop]

theorem engLoop_eval (p : SimulationParams) (n month : ℕ) (balance propV : ℚ) :
    engLoop p n month balance propV =
      if n = 0 then []
      else if balance ≤ 1 / 100 then []
      else (engStep p month balance propV).1 ::
        engLoop p (n - 1) (month + 1) (engStep p month balance propV).2.1
          (engStep p month balance propV).2.2 := by
  cases n <;> simp [engLoop]

theorem invLoop_eval (p : SimulationParams) (sched : List MonthlyInstallment)
    (n idx : ℕ) (inv rent trp : ℚ) :
    invLoop p sched n idx inv rent trp =
      if n = 0 then (inv, trp)
      else invLoop p sched (n - 1) (idx + 1)
        (inv * (1 + p.monthlyInvRate) +
          ((match sched[idx]? with | some inst => inst.totalCashFlow | none => 0) - rent))
        (rent * (1 + p.monthlyRentAdj)) (trp + rent) := by
  cases n <;> simp [invLoop]

theorem bisectLoop_eval (pv L rate : ℚ) (n : ℕ) (ty : AmortizationType) (t k : ℕ)
    (low high : ℚ) :
    bisectLoop pv L rate n ty t k low high =
      if k = 0 then (low, high)
      else if (calculateAmortization (solverParams pv L rate n ty ((low + high) / 2))).installments.length > t then
        bisectLoop pv L rate n ty t (k - 1) ((low + high) / 2) high
      else
        bisectLoop pv L rate n ty t (k - 1) low ((low + high) / 2) := by
  cases k <;> simp [bisectLoop]

/-! ## Claim C5: zero interest rate in the PRICE annuity formula -/

/-- PRICE loan at a zero annual interest rate: principal `1200`, term `12`
months, no extras. -/
def c5Params : FUParams :=
  { propertyValue := 1200
    loanAmount := 1200
    annualInterestRate := 0
    termMonths := 12
    type := .PRICE
    monthlyExtra := 0
    oneTimeExtras := fun _ => 0
    monthlyAppreciationRate := 0
    fgts := { initialBalance := 0, monthlyGrossIncome := 0, useEveryTwoYears := false } }

/-- **C5** (refuting the claimed guard): at a zero annual interest rate with the
PRICE system, `calculateAmortization` contains no zero-rate special case: the
annuity formula evaluates to `0 / 0` (JavaScript `NaN`; `0` in the exact
embedding) and the first installment's amortization is `0`, **not** the claimed
fallback `principal / termMonths = 100`.  The schedule is non-empty, so the
degenerate amortization is actually produced. -/
theorem c5_zero_rate_price_no_fallback :
    (calculateAmortization c5Params).installments ≠ [] ∧
    ((calculateAmortization c5Params).installments.headD default).amortization = 0 ∧
    ((calculateAmortization c5Params).installments.headD default).amortization ≠
      c5Params.loanAmount / (c5Params.termMonths : ℚ) := by
  have h1 : (calculateAmortization c5Params).installments =
      (fuStep c5Params 1 (initCore c5Params)).1 ::
        (fuLoop c5Params 11 2 (fuStep c5Params 1 (initCore c5Params)).2).1 := by
    simp only [calculateAmortization]
    rw [fuLoop_eval]
    norm_num [initCore, c5Params]
  have h2 : (fuStep c5Params 1 (initCore c5Params)).1.amortization = 0 := by
    norm_num [fuStep, c5Params, initCore, monthlyInterestRate, fixedPricePayment,
      monthlyFGTSDeposit, min_def]
  rw [h1]
  refine ⟨by simp, by simpa using h2, ?_⟩
  rw [List.headD_cons, h2]
  norm_num [c5Params]

/-! ## Claim C6: Scenario 2 first-installment values -/

/-- Scenario 2 of the specification: principal `156 817.28`, annual rate
`4.5 %`, term `420` months, PRICE, no extras. -/
def c6Params : FUParams :=
  { propertyValue := 15681728 / 100
    loanAmount := 15681728 / 100
    annualInterestRate := 45 / 10
    termMonths := 420
    type := .PRICE
    monthlyExtra := 0
    oneTimeExtras := fun _ => 0
    monthlyAppreciationRate := 0
    fgts := { initialBalance := 0, monthlyGrossIncome := 0, useEveryTwoYears := false } }

/-- **C6**: for principal `156 817.28`, annual rate `4.5 %`, term `420` months,
PRICE and no extras, the first installment of `calculateAmortization` has
payment `≈ 742.14`, interest `≈ 588.06`, amortization `≈ 154.08` and resulting
balance `≈ 156 663.20`, each within `0.01`. -/
theorem c6_scenario2_first_installment :
    (calculateAmortization c6Params).installments ≠ [] ∧
    |((calculateAmortization c6Params).installments.headD default).payment - 74214 / 100| < 1 / 100 ∧
    |((calculateAmortization c6Params).installments.headD default).interest - 58806 / 100| < 1 / 100 ∧
    |((calculateAmortization c6Params).installments.headD default).amortization - 15408 / 100| < 1 / 100 ∧
    |((calculateAmortization c6Params).installments.headD default).balance - 15666320 / 100| < 1 / 100 := by
  have h1 : (calculateAmortization c6Params).installments =
      (fuStep c6Params 1 (initCore c6Params)).1 ::
        (fuLoop c6Params 419 2 (fuStep c6Params 1 (initCore c6Params)).2).1 := by
    simp only [calculateAmortization]
    rw [fuLoop_eval]
    norm_num [initCore, c6Params]
  rw [h1]
  refine ⟨by simp, ?_, ?_, ?_, ?_⟩ <;>
    · simp only [List.headD_cons]
      rw [abs_sub_lt_iff]
      constructor <;>
        norm_num [fuStep, c6Params, initCore, monthlyInterestRate, fixedPricePayment,
          monthlyFGTSDeposit, min_def, max_def]

/-! ## Claim C1: termination disjunction -/

theorem engStep_finalBalance (p : SimulationParams) (month : ℕ) (b pv : ℚ) :
    (engStep p month b pv).1.finalBalance = (engStep p month b pv).2.1 := rfl

theorem fuStep_balance_field (p : FUParams) (month : ℕ) (c : FUCore) :
    (fuStep p month c).1.balance = max 0 (fuStep p month c).2.currentBalance := rfl

/-- Any run of the `engine.ts` schedule loop either exhausts its fuel, or ends
with a recorded final balance `≤ 0.01`, or produced nothing because the
incoming balance was already `≤ 0.01`. -/
theorem engLoop_term (p : SimulationParams) :
    ∀ (fuel month : ℕ) (b pv : ℚ),
      (engLoop p fuel month b pv).length = fuel ∨
      (∃ h : engLoop p fuel month b pv ≠ [],
        ((engLoop p fuel month b pv).getLast h).finalBalance ≤ 1 / 100) ∨
      (engLoop p fuel month b pv = [] ∧ b ≤ 1 / 100) := by
  intro fuel
  induction fuel with
  | zero => intro month b pv; left; simp [engLoop]
  | succ n ih =>
    intro month b pv
    by_cases hb : b ≤ 1 / 100
    · right; right
      constructor
      · simp only [engLoop]; rw [if_pos hb]
      · exact hb
    · have hcons : engLoop p (n + 1) month b pv =
          (engStep p month b pv).1 ::
            engLoop p n (month + 1) (engStep p month b pv).2.1 (engStep p month b pv).2.2 := by
        simp only [engLoop]; rw [if_neg hb]
      rcases ih (month + 1) (engStep p month b pv).2.1 (engStep p month b pv).2.2 with
        h | ⟨hne, hlast⟩ | ⟨hnil, hble⟩
      · left; rw [hcons]; simp [h]
      · right; left
        refine ⟨by rw [hcons]; simp, ?_⟩
        have : ((engStep p month b pv).1 ::
            engLoop p n (month + 1) (engStep p month b pv).2.1
              (engStep p month b pv).2.2).getLast (List.cons_ne_nil _ _) =
            (engLoop p n (month + 1) (engStep p month b pv).2.1
              (engStep p month b pv).2.2).getLast hne := List.getLast_cons hne
        simp only [hcons]
        rw [this]
        exact hlast
      · right; left
        refine ⟨by rw [hcons]; simp, ?_⟩
        simp only [hcons, hnil, List.getLast_singleton]
        rw [engStep_finalBalance]
        exact hble

/-- Any run of the `financeUtils.ts` schedule loop either exhausts its fuel,
or ends with a recorded balance `≤ 0.01` (the recorded balance is floored at
`0`), or produced nothing because the incoming balance was already `≤ 0`. -/
theorem fuLoop_term (p : FUParams) :
    ∀ (fuel month : ℕ) (c : FUCore),
      (fuLoop p fuel month c).1.length = fuel ∨
      (∃ h : (fuLoop p fuel month c).1 ≠ [],
        ((fuLoop p fuel month c).1.getLast h).balance ≤ 1 / 100) ∨
      ((fuLoop p fuel month c).1 = [] ∧ c.currentBalance ≤ 0) := by
  intro fuel
  induction fuel with
  | zero => intro month c; left; simp [fuLoop]
  | succ n ih =>
    intro month c
    by_cases hb : c.currentBalance ≤ 0
    · right; right; simp [fuLoop, hb]
    · have hcons : (fuLoop p (n + 1) month c).1 =
          (fuStep p month c).1 :: (fuLoop p n (month + 1) (fuStep p month c).2).1 := by
        simp [fuLoop, hb]
      rcases ih (month + 1) (fuStep p month c).2 with h | ⟨hne, hlast⟩ | ⟨hnil, hble⟩
      · left; rw [hcons]; simp [h]
      · right; left
        refine ⟨by rw [hcons]; simp, ?_⟩
        simp only [hcons]
        rw [List.getLast_cons hne]
        exact hlast
      · right; left
        refine ⟨by rw [hcons]; simp, ?_⟩
        simp only [hcons, hnil, List.getLast_singleton]
        rw [fuStep_balance_field]
        simp [max_eq_left hble]

/-- A loan whose principal (`0.005`) is positive but below the engine's `0.01`
payoff tolerance, over a 12-month term. -/
def c1Params : SimulationParams :=
  { propertyValue := 1
    downPayment := 199 / 200
    originalTermYears := 1
    monthlyRate := 0
    amortizationSystem := .SAC
    insuranceRateMIP := 0
    insuranceRateDFI := 0
    adminFeeMonthly := 0
    monthlyAppreciation := 0
    monthlyInvRate := 0
    monthlyRentAdj := 0
    rentEstimateMonthly := 0
    extraAmortizationMonthly := 0
    extraAmortizationLumpSums := fun _ => 0
    strategyType := .REDUCE_TERM }

/-- **C1 (counterexample)**: for the positive principal `0.005` and term `12`
months, `FinanceEngine.calculateAmortizationSchedule` returns the *empty*
sequence (the loop's `balance <= 0.01` guard fires before the first month), so
there is no final installment and the length (`0`) differs from the term
(`12`): both disjuncts of the claimed termination disjunction fail. -/
theorem c1_counterexample :
    0 < loanAmount c1Params ∧ 1 ≤ totalMonths c1Params ∧
    ¬((∃ h : calculateAmortizationSchedule c1Params ≠ [],
        ((calculateAmortizationSchedule c1Params).getLast h).finalBalance ≤ 1 / 100) ∨
      (calculateAmortizationSchedule c1Params).length = totalMonths c1Params) := by
  have hL : calculateAmortizationSchedule c1Params = [] := by
    simp only [calculateAmortizationSchedule]
    rw [engLoop_eval]
    norm_num [c1Params, loanAmount, totalMonths]
  refine ⟨by norm_num [loanAmount, c1Params], by norm_num [totalMonths, c1Params], ?_⟩
  rintro (⟨h, -⟩ | h)
  · exact h hL
  · rw [hL] at h
    simp [totalMonths, c1Params] at h

/-- **C1 (amended)**: the termination disjunction holds for every parameter set
whose principal exceeds the engine's `0.01` payoff tolerance (`engine.ts`
variant), and for every positive principal in the `financeUtils.ts` variant
(whose loop breaks at `balance <= 0`): the final recorded balance is at most
`0.01`, or the schedule length equals the term in months. -/
theorem c1_termination_disjunction :
    (∀ p : SimulationParams, 1 / 100 < loanAmount p →
      (∃ h : calculateAmortizationSchedule p ≠ [],
        ((calculateAmortizationSchedule p).getLast h).finalBalance ≤ 1 / 100) ∨
      (calculateAmortizationSchedule p).length = totalMonths p) ∧
    (∀ p : FUParams, 0 < p.loanAmount →
      (∃ h : (calculateAmortization p).installments ≠ [],
        ((calculateAmortization p).installments.getLast h).balance ≤ 1 / 100) ∨
      (calculateAmortization p).installments.length = p.termMonths) := by
  constructor
  · intro p hp
    rcases engLoop_term p (totalMonths p) 1 (loanAmount p) p.propertyValue with
      h | ⟨hne, hlast⟩ | ⟨-, hble⟩
    · right; exact h
    · left; exact ⟨hne, hlast⟩
    · exact absurd hble (by linarith)
  · intro p hp
    have hinst : (calculateAmortization p).installments =
        (fuLoop p p.termMonths 1 (initCore p)).1 := rfl
    rcases fuLoop_term p p.termMonths 1 (initCore p) with h | ⟨hne, hlast⟩ | ⟨-, hble⟩
    · right; rw [hinst]; exact h
    · left; rw [hinst]; exact ⟨hne, hlast⟩
    · exact absurd hble (by simp [initCore]; linarith)

/-- Witness for `c1_termination_disjunction` at concrete inputs: the engine
variant on a principal of `1` (12-month term), the `financeUtils.ts` variant on
`c5Params` (principal `1200 > 0`). -/
theorem c1_termination_disjunction_witness :
    (1 / 100 < loanAmount { c1Params with downPayment := 0 } ∧
      ((∃ h : calculateAmortizationSchedule { c1Params with downPayment := 0 } ≠ [],
          ((calculateAmortizationSchedule { c1Params with downPayment := 0 }).getLast h).finalBalance ≤ 1 / 100) ∨
        (calculateAmortizationSchedule { c1Params with downPayment := 0 }).length =
          totalMonths { c1Params with downPayment := 0 })) ∧
    (0 < c5Params.loanAmount ∧
      ((∃ h : (calculateAmortization c5Params).installments ≠ [],
          ((calculateAmortization c5Params).installments.getLast h).balance ≤ 1 / 100) ∨
        (calculateAmortization c5Params).installments.length = c5Params.termMonths)) :=
  ⟨⟨by norm_num [loanAmount, c1Params],
    c1_termination_disjunction.1 _ (by norm_num [loanAmount, c1Params])⟩,
   ⟨by norm_num [c5Params],
    c1_termination_disjunction.2 _ (by norm_num [c5Params])⟩⟩

/-! ## Claim C2: per-month conservation and chaining -/

theorem engStep_initialBalance (p : SimulationParams) (month : ℕ) (b pv : ℚ) :
    (engStep p month b pv).1.initialBalance = b := rfl

/-- The balance returned by one engine step satisfies exact conservation with
the *recorded* (clamped) amortization and extra amortization, and is never
negative: the amortization is capped at the balance, the extra at the remaining
balance, so the `balance < 0` floor never actually fires. -/
theorem engStep_conservation (p : SimulationParams) (month : ℕ) (b pv : ℚ) :
    (engStep p month b pv).2.1 =
      b - (engStep p month b pv).1.amortization - (engStep p month b pv).1.extraAmortization ∧
    0 ≤ (engStep p month b pv).2.1 := by
  simp only [engStep]
  split_ifs <;> constructor <;> linarith

/-- Loop invariant for C2: every produced installment conserves balance, no
final balance is negative, consecutive installments chain, and the first
installment (if any) starts from the incoming balance. -/
theorem engLoop_conservation (p : SimulationParams) :
    ∀ (fuel month : ℕ) (b pv : ℚ),
      (∀ inst ∈ engLoop p fuel month b pv,
        inst.finalBalance = inst.initialBalance - inst.amortization - inst.extraAmortization ∧
        0 ≤ inst.finalBalance) ∧
      (engLoop p fuel month b pv).Chain' (fun a c => c.initialBalance = a.finalBalance) ∧
      (∀ x ∈ (engLoop p fuel month b pv).head?, x.initialBalance = b) := by
  intro fuel
  induction fuel with
  | zero => intro month b pv; simp [engLoop]
  | succ n ih =>
    intro month b pv
    by_cases hb : b ≤ 1 / 100
    · constructor
      · intro inst hinst
        rw [show engLoop p (n + 1) month b pv = [] from by
          simp only [engLoop]; rw [if_pos hb]] at hinst
        simp at hinst
      · rw [show engLoop p (n + 1) month b pv = [] from by
          simp only [engLoop]; rw [if_pos hb]]
        simp
    · have hcons : engLoop p (n + 1) month b pv =
          (engStep p month b pv).1 ::
            engLoop p n (month + 1) (engStep p month b pv).2.1 (engStep p month b pv).2.2 := by
        simp only [engLoop]; rw [if_neg hb]
      obtain ⟨ihMem, ihChain, ihHead⟩ :=
        ih (month + 1) (engStep p month b pv).2.1 (engStep p month b pv).2.2
      obtain ⟨hcons1, hcons2⟩ := engStep_conservation p month b pv
      rw [hcons]
      refine ⟨?_, ?_, ?_⟩
      · intro inst hinst
        rcases List.mem_cons.1 hinst with rfl | hmem
        · rw [engStep_finalBalance, engStep_initialBalance] at *
          exact ⟨hcons1, hcons2⟩
        · exact ihMem inst hmem
      · rw [List.chain'_cons']
        refine ⟨?_, ihChain⟩
        intro y hy
        rw [ihHead y hy, engStep_finalBalance]
      · intro x hx
        simp only [List.head?_cons, Option.mem_some_iff] at hx
        rw [← hx, engStep_initialBalance]

/-- Pure arithmetic: the after-extra balance `b - (a + min X (b - a))` is
non-negative as soon as the clamp `min` is in place. -/
theorem balance_update_nonneg (b a X : ℚ) : 0 ≤ b - (a + min X (b - a)) := by
  have h := min_le_right X (b - a); linarith

theorem fuStep_month (p : FUParams) (month : ℕ) (c : FUCore) :
    (fuStep p month c).1.month = month := rfl

theorem fuStep_initialBalance (p : FUParams) (month : ℕ) (c : FUCore) :
    (fuStep p month c).1.initialBalance = c.currentBalance := rfl

/-- One `financeUtils.ts` step also conserves balance exactly: the recorded
(floored) balance equals the internal one because the caps keep it
non-negative. -/
theorem fuStep_conservation (p : FUParams) (month : ℕ) (c : FUCore) :
    (fuStep p month c).1.balance =
      (fuStep p month c).1.initialBalance - (fuStep p month c).1.amortization -
        (fuStep p month c).1.extraAmortization ∧
    0 ≤ (fuStep p month c).1.balance ∧
    (fuStep p month c).1.balance = (fuStep p month c).2.currentBalance := by
  simp only [fuStep]
  refine ⟨?_, le_max_left 0 _, ?_⟩
  · rw [max_eq_right (balance_update_nonneg _ _ _)]
    ring
  · rw [max_eq_right (balance_update_nonneg _ _ _)]

/-- Loop invariant for the `financeUtils.ts` half of C2. -/
theorem fuLoop_conservation (p : FUParams) :
    ∀ (fuel month : ℕ) (c : FUCore),
      (∀ inst ∈ (fuLoop p fuel month c).1,
        inst.balance = inst.initialBalance - inst.amortization - inst.extraAmortization ∧
        0 ≤ inst.balance) ∧
      ((fuLoop p fuel month c).1).Chain' (fun a b => b.initialBalance = a.balance) ∧
      (∀ x ∈ ((fuLoop p fuel month c).1).head?, x.initialBalance = c.currentBalance) := by
  intro fuel
  induction fuel with
  | zero => intro month c; simp [fuLoop]
  | succ n ih =>
    intro month c
    by_cases hb : c.currentBalance ≤ 0
    · rw [show (fuLoop p (n + 1) month c).1 = [] from by simp [fuLoop, hb]]
      simp
    · rw [show (fuLoop p (n + 1) month c).1 =
          (fuStep p month c).1 :: (fuLoop p n (month + 1) (fuStep p month c).2).1 from by
        simp [fuLoop, hb]]
      obtain ⟨ihMem, ihChain, ihHead⟩ := ih (month + 1) (fuStep p month c).2
      obtain ⟨hc1, hc2, hc3⟩ := fuStep_conservation p month c
      refine ⟨?_, ?_, ?_⟩
      · intro inst hinst
        rcases List.mem_cons.1 hinst with rfl | hmem
        · exact ⟨hc1, hc2⟩
        · exact ihMem inst hmem
      · rw [List.chain'_cons']
        refine ⟨?_, ihChain⟩
        intro y hy
        rw [ihHead y hy, hc3]
      · intro x hx
        simp only [List.head?_cons, Option.mem_some_iff] at hx
        rw [← hx, fuStep_initialBalance]

/-- **C2**: in every schedule produced by either Schedule Generator
(`FinanceEngine.calculateAmortizationSchedule` of `engine.ts`, and
`calculateAmortization` of `financeUtils.ts`), every installment satisfies
`finalBalance = initialBalance - amortization - extraAmortization` (with the
clamped amortization and extra; the recorded balance field in the
`financeUtils.ts` variant), no final balance is negative (even when the
requested extra exceeds the remaining balance), and each installment's initial
balance equals the previous installment's final balance. -/
theorem c2_conservation :
    (∀ p : SimulationParams,
      (∀ inst ∈ calculateAmortizationSchedule p,
        inst.finalBalance = inst.initialBalance - inst.amortization - inst.extraAmortization ∧
        0 ≤ inst.finalBalance) ∧
      (calculateAmortizationSchedule p).Chain' (fun a c => c.initialBalance = a.finalBalance)) ∧
    (∀ p : FUParams,
      (∀ inst ∈ (calculateAmortization p).installments,
        inst.balance = inst.initialBalance - inst.amortization - inst.extraAmortization ∧
        0 ≤ inst.balance) ∧
      ((calculateAmortization p).installments).Chain'
        (fun a b => b.initialBalance = a.balance)) := by
  constructor
  · intro p
    obtain ⟨h1, h2, -⟩ :=
      engLoop_conservation p (totalMonths p) 1 (loanAmount p) p.propertyValue
    exact ⟨h1, h2⟩
  · intro p
    obtain ⟨h1, h2, -⟩ := fuLoop_conservation p p.termMonths 1 (initCore p)
    exact ⟨h1, h2⟩

/-- A 12-month loan of `1200` at rate `0` whose `2000` monthly extra payment
exceeds the remaining balance already in month 1. -/
def c2W : SimulationParams :=
  { propertyValue := 1200
    downPayment := 0
    originalTermYears := 1
    monthlyRate := 0
    amortizationSystem := .SAC
    insuranceRateMIP := 0
    insuranceRateDFI := 0
    adminFeeMonthly := 0
    monthlyAppreciation := 0
    monthlyInvRate := 0
    monthlyRentAdj := 0
    rentEstimateMonthly := 0
    extraAmortizationMonthly := 2000
    extraAmortizationLumpSums := fun _ => 0
    strategyType := .REDUCE_TERM }

/-- A one-month loan of `1000` at rate `0` with no extras, for the
`financeUtils.ts` half of the C2 witness. -/
def c2Wfu : FUParams :=
  { propertyValue := 1000
    loanAmount := 1000
    annualInterestRate := 0
    termMonths := 1
    type := .SAC
    monthlyExtra := 0
    oneTimeExtras := fun _ => 0
    monthlyAppreciationRate := 0
    fgts := { initialBalance := 0, monthlyGrossIncome := 0, useEveryTwoYears := false } }

/-- Witness for `c2_conservation`: the first (and only) installment of the
`c2W` engine schedule — whose requested extra `2000` exceeds the remaining
balance — and of the `c2Wfu` `financeUtils.ts` schedule both satisfy
conservation and non-negativity. -/
theorem c2_conservation_witness :
    ((engStep c2W 1 1200 1200).1 ∈ calculateAmortizationSchedule c2W ∧
     ((engStep c2W 1 1200 1200).1.finalBalance =
       (engStep c2W 1 1200 1200).1.initialBalance - (engStep c2W 1 1200 1200).1.amortization -
         (engStep c2W 1 1200 1200).1.extraAmortization ∧
      0 ≤ (engStep c2W 1 1200 1200).1.finalBalance)) ∧
    ((fuStep c2Wfu 1 (initCore c2Wfu)).1 ∈ (calculateAmortization c2Wfu).installments ∧
     ((fuStep c2Wfu 1 (initCore c2Wfu)).1.balance =
       (fuStep c2Wfu 1 (initCore c2Wfu)).1.initialBalance -
         (fuStep c2Wfu 1 (initCore c2Wfu)).1.amortization -
         (fuStep c2Wfu 1 (initCore c2Wfu)).1.extraAmortization ∧
      0 ≤ (fuStep c2Wfu 1 (initCore c2Wfu)).1.balance)) := by
  have hstep : (engStep c2W 1 1200 1200).2.1 = 0 := by
    norm_num [engStep, c2W, loanAmount, totalMonths, initialPricePMT]
  have hL : calculateAmortizationSchedule c2W = [(engStep c2W 1 1200 1200).1] := by
    simp only [calculateAmortizationSchedule]
    rw [show totalMonths c2W = 12 from by norm_num [totalMonths, c2W],
      show loanAmount c2W = 1200 from by norm_num [loanAmount, c2W],
      show c2W.propertyValue = 1200 from by norm_num [c2W]]
    rw [engLoop_eval]
    norm_num [hstep]
    rw [engLoop_eval]
    norm_num
  have hmem : (engStep c2W 1 1200 1200).1 ∈ calculateAmortizationSchedule c2W := by
    rw [hL]; simp
  have hLfu : (calculateAmortization c2Wfu).installments =
      [(fuStep c2Wfu 1 (initCore c2Wfu)).1] := by
    show (fuLoop c2Wfu c2Wfu.termMonths 1 (initCore c2Wfu)).1 = _
    rw [show c2Wfu.termMonths = 1 from rfl, fuLoop_eval]
    norm_num [initCore, c2Wfu, fuLoop]
  have hmemfu : (fuStep c2Wfu 1 (initCore c2Wfu)).1 ∈ (calculateAmortization c2Wfu).installments := by
    rw [hLfu]; simp
  exact ⟨⟨hmem, (c2_conservation.1 c2W).1 _ hmem⟩,
         ⟨hmemfu, (c2_conservation.2 c2Wfu).1 _ hmemfu⟩⟩

/-! ## Claim C8: the comparator's decision record -/

/-- **C8**: whenever `FinanceEngine.compareScenarios` returns a result (i.e. on
any non-empty buy schedule), the decision names `BUY` exactly when the final
property value — the last installment's property value projected forward to the
full original-term horizon by the same compounding appreciation rule used
inside the schedule — exceeds the final invested pot, and `RENT_INVEST`
otherwise; the reported difference is the absolute gap between the two; and the
break-even month is the explicit `none` sentinel. -/
theorem c8_decision_rule (p : SimulationParams) (sched : List MonthlyInstallment)
    (r : ComparisonResult) (hr : compareScenarios p sched = some r) :
    ∃ h : sched ≠ [],
      (r.decision.financiallyBetter = .BUY ↔
        r.investScenario.finalInvestedAmount <
          (sched.getLast h).propertyValue *
            (1 + p.monthlyAppreciation) ^ (totalMonths p - (sched.getLast h).month)) ∧
      r.decision.difference =
        |(sched.getLast h).propertyValue *
            (1 + p.monthlyAppreciation) ^ (totalMonths p - (sched.getLast h).month) -
          r.investScenario.finalInvestedAmount| ∧
      r.decision.breakEvenMonth = none := by
  rcases hgl : sched.getLast? with - | last
  · rw [compareScenarios, hgl] at hr
    simp at hr
  · have hne : sched ≠ [] := by
      rintro rfl; simp at hgl
    have hlast : sched.getLast hne = last := by
      have := List.getLast?_eq_getLast sched hne
      rw [hgl] at this
      exact (Option.some_injective _ this.symm)
    rw [compareScenarios, hgl] at hr
    set inv := (invLoop p sched (totalMonths p) 0 p.downPayment p.rentEstimateMonthly 0).1 with hinv
    have hproj :
        (if 0 < totalMonths p - last.month then
          last.propertyValue * (1 + p.monthlyAppreciation) ^ (totalMonths p - last.month)
        else last.propertyValue) =
        last.propertyValue * (1 + p.monthlyAppreciation) ^ (totalMonths p - last.month) := by
      by_cases h0 : 0 < totalMonths p - last.month
      · rw [if_pos h0]
      · rw [if_neg h0, show totalMonths p - last.month = 0 from by omega, pow_zero, mul_one]
    refine ⟨hne, ?_⟩
    rw [hlast]
    obtain rfl : _ = r := Option.some_injective _ hr
    simp only [hproj]
    refine ⟨?_, by trivial, by trivial⟩
    by_cases hlt : inv < last.propertyValue * (1 + p.monthlyAppreciation) ^ (totalMonths p - last.month)
    · simp [hlt]
    · simp [hlt]

/-! ## Claim C7: the invest-the-difference trajectory

Specification-side definitions (from the claim's wording) of the investment
trajectory, to be compared with the source-side `invLoop`. -/

/-- Spec side: the rent at (0-based) month offset `m`, grown from the monthly
rent estimate by the monthly-equivalent inflation rate each month. -/
def specRentAt (p : SimulationParams) (m : ℕ) : ℚ :=
  p.rentEstimateMonthly * (1 + p.monthlyRentAdj) ^ m

/-- Spec side: the committed budget at (1-based) month `m` — the buy schedule's
total cash flow at month `m` if `m` is within the schedule's length, else `0`. -/
def specBudget (sched : List MonthlyInstallment) (m : ℕ) : ℚ :=
  if m ≤ sched.length then (sched.getD (m - 1) default).totalCashFlow else 0

/-- Spec side: the invested pot after `m` months — starts from the down
payment; each month first grows by the monthly-equivalent investment benchmark
rate, then receives the (possibly negative) contribution `budget - rent`. -/
def specInvestPot (p : SimulationParams) (sched : List MonthlyInstallment) : ℕ → ℚ
  | 0 => p.downPayment
  | m + 1 =>
    specInvestPot p sched m * (1 + p.monthlyInvRate) + (specBudget sched (m + 1) - specRentAt p m)

theorem buyCost_eq_specBudget (sched : List MonthlyInstallment) (idx : ℕ) :
    (match sched[idx]? with | some inst => inst.totalCashFlow | none => 0) =
      specBudget sched (idx + 1) := by
  rcases h : sched[idx]? with - | inst
  · have hlen : sched.length ≤ idx := List.getElem?_eq_none_iff.mp h
    simp only [specBudget]
    rw [if_neg (by omega)]
  · obtain ⟨hlt, -⟩ := List.getElem?_eq_some_iff.mp h
    simp only [specBudget]
    rw [if_pos (by omega), Nat.add_sub_cancel, List.getD_eq_getElem?_getD, h]
    rfl

/-- The source loop `invLoop`, started at month offset `idx` with the
spec-side pot and rent values, computes the spec-side pot and rent total. -/
theorem invLoop_spec (p : SimulationParams) (sched : List MonthlyInstallment) :
    ∀ (fuel idx : ℕ) (trp : ℚ),
      invLoop p sched fuel idx (specInvestPot p sched idx) (specRentAt p idx) trp =
        (specInvestPot p sched (idx + fuel),
         trp + ∑ j ∈ Finset.range fuel, specRentAt p (idx + j)) := by
  intro fuel
  induction fuel with
  | zero => intro idx trp; simp [invLoop]
  | succ n ih =>
    intro idx trp
    rw [invLoop]
    have hpot : specInvestPot p sched idx * (1 + p.monthlyInvRate) +
        ((match sched[idx]? with | some inst => inst.totalCashFlow | none => 0) -
          specRentAt p idx) = specInvestPot p sched (idx + 1) := by
      rw [buyCost_eq_specBudget, specInvestPot]
    have hrent : specRentAt p idx * (1 + p.monthlyRentAdj) = specRentAt p (idx + 1) := by
      simp only [specRentAt, pow_succ]; ring
    rw [hpot, hrent, ih (idx + 1) (trp + specRentAt p idx), Prod.mk.injEq]
    constructor
    · rw [show idx + 1 + n = idx + (n + 1) from by omega]
    · rw [Finset.sum_range_succ']
      rw [Finset.sum_congr rfl fun j _ => by
        rw [show idx + 1 + j = idx + (j + 1) from by omega]]
      rw [Nat.add_zero]
      ring

/-- **C7**: whenever `FinanceEngine.compareScenarios` returns a result (i.e.
on any non-empty buy schedule), the investment trajectory equals the spec-side
recurrence `specInvestPot` — start from the down payment; each month grow the
pot by the monthly-equivalent benchmark rate, then add `budget − rent` (budget
= the buy schedule's cash flow while within the schedule, else `0`; the
contribution may be negative), with the rent growing by the monthly-equivalent
inflation rate each month — and the reported total rent paid is the sum of the
monthly rents over the full original-term horizon. -/
theorem c7_invest_trajectory (p : SimulationParams) (sched : List MonthlyInstallment)
    (r : ComparisonResult) (hr : compareScenarios p sched = some r) :
    r.investScenario.finalInvestedAmount = specInvestPot p sched (totalMonths p) ∧
    r.investScenario.totalRentPaid = ∑ m ∈ Finset.range (totalMonths p), specRentAt p m := by
  have hloop : invLoop p sched (totalMonths p) 0 p.downPayment p.rentEstimateMonthly 0 =
      (specInvestPot p sched (totalMonths p),
       ∑ m ∈ Finset.range (totalMonths p), specRentAt p m) := by
    have h0p : p.downPayment = specInvestPot p sched 0 := by simp [specInvestPot]
    have h0r : p.rentEstimateMonthly = specRentAt p 0 := by simp [specRentAt]
    rw [h0p, h0r, invLoop_spec p sched (totalMonths p) 0 0]
    simp
  rcases hgl : sched.getLast? with - | last
  · rw [compareScenarios, hgl] at hr
    simp at hr
  · rw [compareScenarios, hgl] at hr
    obtain rfl : _ = r := Option.some_injective _ hr
    simp only [hloop]
    exact ⟨by trivial, by trivial⟩

/-- A one-installment schedule used to witness the comparator claims. -/
def tinyInst : MonthlyInstallment :=
  { month := 1
    year := 1
    initialBalance := 7
    finalBalance := 0
    interest := 0
    amortization := 7
    extraAmortization := 0
    insuranceMIP := 0
    insuranceDFI := 0
    adminFee := 0
    totalPayment := 7
    totalCashFlow := 7
    propertyValue := 50
    netEquity := 50 }

/-- Parameters with a zero-month comparison horizon used to witness the
comparator claims. -/
def tinyParams : SimulationParams :=
  { propertyValue := 50
    downPayment := 10
    originalTermYears := 0
    monthlyRate := 0
    amortizationSystem := .SAC
    insuranceRateMIP := 0
    insuranceRateDFI := 0
    adminFeeMonthly := 0
    monthlyAppreciation := 0
    monthlyInvRate := 0
    monthlyRentAdj := 0
    rentEstimateMonthly := 0
    extraAmortizationMonthly := 0
    extraAmortizationLumpSums := fun _ => 0
    strategyType := .REDUCE_TERM }

/-- The comparison result `compareScenarios` produces on `tinyParams` and
`[tinyInst]`. -/
def tinyResult : ComparisonResult :=
  { buyScenario := { totalPaid := 7, finalNetEquity := 50, installments := [tinyInst] }
    investScenario := { totalRentPaid := 0, finalInvestedAmount := 10, netEquity := 10 }
    decision := { financiallyBetter := .BUY, difference := 40, breakEvenMonth := none } }

theorem compareScenarios_tiny : compareScenarios tinyParams [tinyInst] = some tinyResult := by
  simp only [compareScenarios,
    show totalMonths tinyParams = 0 from by norm_num [totalMonths, tinyParams]]
  rw [invLoop]
  simp only [List.getLast?_singleton]
  norm_num [tinyParams, tinyInst, tinyResult, abs, max_def]

/-- Witness for `c7_invest_trajectory` at `tinyParams` and the one-installment
schedule `[tinyInst]`. -/
theorem c7_invest_trajectory_witness :
    compareScenarios tinyParams [tinyInst] = some tinyResult ∧
    (tinyResult.investScenario.finalInvestedAmount =
      specInvestPot tinyParams [tinyInst] (totalMonths tinyParams) ∧
     tinyResult.investScenario.totalRentPaid =
      ∑ m ∈ Finset.range (totalMonths tinyParams), specRentAt tinyParams m) :=
  ⟨compareScenarios_tiny,
   c7_invest_trajectory tinyParams [tinyInst] tinyResult compareScenarios_tiny⟩

/-- Witness for `c8_decision_rule` at `tinyParams` and the one-installment
schedule `[tinyInst]`. -/
theorem c8_decision_rule_witness :
    compareScenarios tinyParams [tinyInst] = some tinyResult ∧
    (∃ h : [tinyInst] ≠ [],
      (tinyResult.decision.financiallyBetter = .BUY ↔
        tinyResult.investScenario.finalInvestedAmount <
          (([tinyInst].getLast h).propertyValue *
            (1 + tinyParams.monthlyAppreciation) ^
              (totalMonths tinyParams - ([tinyInst].getLast h).month))) ∧
      tinyResult.decision.difference =
        |([tinyInst].getLast h).propertyValue *
            (1 + tinyParams.monthlyAppreciation) ^
              (totalMonths tinyParams - ([tinyInst].getLast h).month) -
          tinyResult.investScenario.finalInvestedAmount| ∧
      tinyResult.decision.breakEvenMonth = none) :=
  ⟨compareScenarios_tiny,
   c8_decision_rule tinyParams [tinyInst] tinyResult compareScenarios_tiny⟩

/-! ## Claim C10: the FGTS wallet

Specification-side wallet (from the claim's wording): accrues the monthly
deposit on top of the initial balance and resets to zero — discarding any
amount, regardless of what the schedule's cap actually consumed — at every
month index divisible by 24. -/

/-- Spec side: the FGTS wallet balance after month `m` has been processed. -/
def specWallet (p : FUParams) : ℕ → ℚ
  | 0 => p.fgts.initialBalance
  | m + 1 =>
    if p.fgts.useEveryTwoYears = true ∧ 24 ∣ (m + 1) then 0
    else specWallet p m + monthlyFGTSDeposit p

/-- One step of the schedule records exactly the claim-side extra: recurring
plus one-time plus (at 24-month boundaries) the whole accrued wallet, capped by
`min` at the remaining balance after scheduled amortization. -/
theorem fuStep_extra (p : FUParams) (hflag : p.fgts.useEveryTwoYears = true)
    (month : ℕ) (c : FUCore) (hw : c.currentFGTSBalance = specWallet p (month - 1)) :
    (fuStep p month c).1.extraAmortization =
      min (p.monthlyExtra + p.oneTimeExtras month +
            (if 24 ∣ month then specWallet p (month - 1) + monthlyFGTSDeposit p else 0))
        (c.currentBalance - (fuStep p month c).1.amortization) := by
  simp only [fuStep]
  rw [hw]
  by_cases hdvd : 24 ∣ month
  · have hmod : month % 24 = 0 := Nat.dvd_iff_mod_eq_zero.mp hdvd
    rw [if_pos (And.intro hflag hmod), if_pos hdvd]
  · have hmod : ¬ month % 24 = 0 := fun h => hdvd (Nat.dvd_iff_mod_eq_zero.mpr h)
    rw [if_neg (fun h => hmod h.2), if_neg hdvd]
    rw [add_zero]

/-- One step of the schedule updates the wallet exactly as the claim-side
wallet does: accrue the deposit, and reset to zero at 24-month boundaries. -/
theorem fuStep_wallet (p : FUParams) (hflag : p.fgts.useEveryTwoYears = true)
    (month : ℕ) (hm : 1 ≤ month) (c : FUCore)
    (hw : c.currentFGTSBalance = specWallet p (month - 1)) :
    (fuStep p month c).2.currentFGTSBalance = specWallet p month := by
  obtain ⟨k, rfl⟩ : ∃ k, month = k + 1 := ⟨month - 1, by omega⟩
  by_cases hdvd : 24 ∣ (k + 1)
  · have hmod : (k + 1) % 24 = 0 := Nat.dvd_iff_mod_eq_zero.mp hdvd
    simp only [fuStep, specWallet]
    rw [if_pos (And.intro hflag hmod), if_pos (And.intro hflag hdvd)]
  · have hmod : ¬ (k + 1) % 24 = 0 := fun h => hdvd (Nat.dvd_iff_mod_eq_zero.mpr h)
    simp only [fuStep, specWallet]
    rw [if_neg (fun h => hmod h.2), if_neg (fun h => hdvd h.2), hw, Nat.add_sub_cancel]

/-- Loop invariant for C10: if the loop enters month `month ≥ 1` with the
claim-side wallet, every later installment records the claim-side extra. -/
theorem fuLoop_fgts (p : FUParams) (hflag : p.fgts.useEveryTwoYears = true) :
    ∀ (fuel month : ℕ) (c : FUCore), 1 ≤ month →
      c.currentFGTSBalance = specWallet p (month - 1) →
      ∀ inst ∈ (fuLoop p fuel month c).1,
        inst.extraAmortization =
          min (p.monthlyExtra + p.oneTimeExtras inst.month +
                (if 24 ∣ inst.month then specWallet p (inst.month - 1) + monthlyFGTSDeposit p
                 else 0))
            (inst.initialBalance - inst.amortization) := by
  intro fuel
  induction fuel with
  | zero => intro month c _ _ inst hinst; simp [fuLoop] at hinst
  | succ n ih =>
    intro month c hm hw inst hinst
    by_cases hb : c.currentBalance ≤ 0
    · rw [show (fuLoop p (n + 1) month c).1 = [] from by simp [fuLoop, hb]] at hinst
      simp at hinst
    · rw [show (fuLoop p (n + 1) month c).1 =
          (fuStep p month c).1 :: (fuLoop p n (month + 1) (fuStep p month c).2).1 from by
        simp [fuLoop, hb]] at hinst
      rcases List.mem_cons.1 hinst with rfl | hmem
      · rw [fuStep_month, fuStep_initialBalance]
        exact fuStep_extra p hflag month c hw
      · exact ih (month + 1) (fuStep p month c).2 (by omega)
          (by rw [fuStep_wallet p hflag month hm c hw, Nat.add_sub_cancel]) inst hmem

/-- **C10**: with the every-two-years flag enabled, the wallet deposit is 8 %
of the declared monthly gross income, and every installment of
`calculateAmortization` records as extra amortization exactly the recurring
extra plus the one-time extra plus — at every month index divisible by 24 that
the schedule reaches — the entire claim-side accrued wallet (initial balance
plus all deposits since the last application), the combined amount being capped
by `min` at the remaining balance minus the scheduled amortization; the wallet
(`specWallet`) resets to zero at each application regardless of how much of it
the cap let through, i.e. any amount cut off is discarded, not retained. -/
theorem c10_fgts_wallet (p : FUParams) (hflag : p.fgts.useEveryTwoYears = true) :
    monthlyFGTSDeposit p = 8 / 100 * p.fgts.monthlyGrossIncome ∧
    ∀ inst ∈ (calculateAmortization p).installments,
      inst.extraAmortization =
        min (p.monthlyExtra + p.oneTimeExtras inst.month +
              (if 24 ∣ inst.month then specWallet p (inst.month - 1) + monthlyFGTSDeposit p
               else 0))
          (inst.initialBalance - inst.amortization) := by
  constructor
  · rw [monthlyFGTSDeposit]; ring
  · intro inst hinst
    exact fuLoop_fgts p hflag p.termMonths 1 (initCore p) (by omega)
      (by simp [initCore, specWallet]) inst hinst

/-- A one-month FGTS-enabled loan used to witness C10. -/
def c10W : FUParams :=
  { propertyValue := 1000
    loanAmount := 1000
    annualInterestRate := 0
    termMonths := 1
    type := .SAC
    monthlyExtra := 3
    oneTimeExtras := fun _ => 0
    monthlyAppreciationRate := 0
    fgts := { initialBalance := 5, monthlyGrossIncome := 100, useEveryTwoYears := true } }

/-- Witness for `c10_fgts_wallet`: the single installment of the `c10W`
schedule. -/
theorem c10_fgts_wallet_witness :
    c10W.fgts.useEveryTwoYears = true ∧
    (fuStep c10W 1 (initCore c10W)).1 ∈ (calculateAmortization c10W).installments ∧
    (fuStep c10W 1 (initCore c10W)).1.extraAmortization =
      min (c10W.monthlyExtra + c10W.oneTimeExtras (fuStep c10W 1 (initCore c10W)).1.month +
            (if 24 ∣ (fuStep c10W 1 (initCore c10W)).1.month then
              specWallet c10W ((fuStep c10W 1 (initCore c10W)).1.month - 1) +
                monthlyFGTSDeposit c10W
             else 0))
        ((fuStep c10W 1 (initCore c10W)).1.initialBalance -
          (fuStep c10W 1 (initCore c10W)).1.amortization) := by
  have hL : (calculateAmortization c10W).installments = [(fuStep c10W 1 (initCore c10W)).1] := by
    show (fuLoop c10W c10W.termMonths 1 (initCore c10W)).1 = _
    rw [show c10W.termMonths = 1 from rfl, fuLoop_eval]
    norm_num [initCore, c10W, fuLoop]
  have hmem : (fuStep c10W 1 (initCore c10W)).1 ∈ (calculateAmortization c10W).installments := by
    rw [hL]; simp
  exact ⟨rfl, hmem, (c10_fgts_wallet c10W rfl).2 _ hmem⟩

/-! ## Claim C4: the target-term bisection solver

`solverParams` models the converted default appreciation rate as `0`; the two
lemmas below justify this: the appreciation rate influences only the property
value, never the installments. -/

theorem fuLoop_installments_indep (p : FUParams) (x : ℚ) :
    ∀ (fuel month : ℕ) (c : FUCore) (y : ℚ),
      (fuLoop { p with monthlyAppreciationRate := x } fuel month
        { c with currentPropertyValue := y }).1 =
      (fuLoop p fuel month c).1 := by
  intro fuel
  induction fuel with
  | zero => intro month c y; rfl
  | succ n ih =>
    intro month c y
    by_cases hb : c.currentBalance ≤ 0
    · rw [show (fuLoop { p with monthlyAppreciationRate := x } (n + 1) month
          { c with currentPropertyValue := y }).1 = [] from by simp [fuLoop, hb]]
      rw [show (fuLoop p (n + 1) month c).1 = [] from by simp [fuLoop, hb]]
    · have hstep1 : (fuStep { p with monthlyAppreciationRate := x } month
          { c with currentPropertyValue := y }).1 = (fuStep p month c).1 := rfl
      have hstep2 : (fuStep { p with monthlyAppreciationRate := x } month
          { c with currentPropertyValue := y }).2 =
          { (fuStep p month c).2 with currentPropertyValue := y * (1 + x) } := rfl
      rw [show (fuLoop { p with monthlyAppreciationRate := x } (n + 1) month
          { c with currentPropertyValue := y }).1 =
          (fuStep { p with monthlyAppreciationRate := x } month
            { c with currentPropertyValue := y }).1 ::
            (fuLoop { p with monthlyAppreciationRate := x } n (month + 1)
              (fuStep { p with monthlyAppreciationRate := x } month
                { c with currentPropertyValue := y }).2).1 from by simp [fuLoop, hb]]
      rw [show (fuLoop p (n + 1) month c).1 =
          (fuStep p month c).1 :: (fuLoop p n (month + 1) (fuStep p month c).2).1 from by
        simp [fuLoop, hb]]
      rw [hstep1, hstep2, ih (month + 1) (fuStep p month c).2 (y * (1 + x))]

theorem calculateAmortization_installments_indep (p : FUParams) (x : ℚ) :
    (calculateAmortization { p with monthlyAppreciationRate := x }).installments =
      (calculateAmortization p).installments := by
  show (fuLoop { p with monthlyAppreciationRate := x } p.termMonths 1
      (initCore { p with monthlyAppreciationRate := x })).1 =
    (fuLoop p p.termMonths 1 (initCore p)).1
  rw [show initCore { p with monthlyAppreciationRate := x } =
      { initCore p with currentPropertyValue := p.propertyValue } from rfl]
  exact fuLoop_installments_indep p x p.termMonths 1 (initCore p) p.propertyValue

/-- Spec side: one bisection update on the `(low, high)` pair — take the
midpoint, run the Schedule Generator with it as the recurring extra, raise the
lower bound to the midpoint when the schedule is longer than the target, and
lower the upper bound to the midpoint otherwise. -/
def specBisectUpdate (pv L rate : ℚ) (n : ℕ) (ty : AmortizationType) (target : ℕ)
    (s : ℚ × ℚ) : ℚ × ℚ :=
  let mid := (s.1 + s.2) / 2
  if (calculateAmortization (solverParams pv L rate n ty mid)).installments.length > target then
    (mid, s.2)
  else (s.1, mid)

/-- The solver's loop is the 20-fold iterate of the spec-side update. -/
theorem bisectLoop_iterate (pv L rate : ℚ) (n : ℕ) (ty : AmortizationType) (target : ℕ) :
    ∀ (k : ℕ) (low high : ℚ),
      bisectLoop pv L rate n ty target k low high =
        (specBisectUpdate pv L rate n ty target)^[k] (low, high) := by
  intro k
  induction k with
  | zero => intro low high; simp [bisectLoop]
  | succ m ih =>
    intro low high
    rw [Function.iterate_succ_apply]
    by_cases hc : (calculateAmortization
        (solverParams pv L rate n ty ((low + high) / 2))).installments.length > target
    · rw [show specBisectUpdate pv L rate n ty target (low, high) = ((low + high) / 2, high) from by
        simp only [specBisectUpdate]; rw [if_pos hc]]
      rw [← ih ((low + high) / 2) high]
      simp only [bisectLoop]; rw [if_pos hc]
    · rw [show specBisectUpdate pv L rate n ty target (low, high) = (low, (low + high) / 2) from by
        simp only [specBisectUpdate]; rw [if_neg hc]]
      rw [← ih low ((low + high) / 2)]
      simp only [bisectLoop]; rw [if_neg hc]

/-- The concrete Scenario-4 loan: principal `1000`, annual rate `12 %`, term
`2` months, SAC, with recurring extra `e` (as the solver invokes it). -/
def c4Sched (e : ℚ) : FUParams := solverParams 1000 1000 12 2 .SAC e

/-- Below the exact threshold `500`, the Scenario-4 schedule takes the full
2 months. -/
theorem c4_len_two (e : ℚ) (h5 : e < 500) :
    (calculateAmortization (c4Sched e)).installments.length = 2 := by
  have h1 : (fuStep (c4Sched e) 1 (initCore (c4Sched e))).2.currentBalance = 500 - e := by
    simp only [fuStep, c4Sched, solverParams, initCore, monthlyInterestRate, monthlyFGTSDeposit]
    norm_num
    rw [min_eq_left (by linarith)]
    ring
  show (fuLoop (c4Sched e) (c4Sched e).termMonths 1 (initCore (c4Sched e))).1.length = 2
  rw [show (c4Sched e).termMonths = 2 from rfl]
  rw [fuLoop_eval]
  rw [if_neg (by norm_num), if_neg (by simp only [initCore, c4Sched, solverParams]; norm_num)]
  rw [List.length_cons]
  rw [show (2 : ℕ) - 1 = 1 from rfl, fuLoop_eval]
  rw [if_neg (by norm_num), if_neg (by rw [h1]; intro h; linarith)]
  simp [fuLoop]

/-- At extra exactly `500`, the Scenario-4 schedule closes in 1 month. -/
theorem c4_len_at_500 :
    (calculateAmortization (c4Sched 500)).installments.length = 1 := by
  have h1 : (fuStep (c4Sched 500) 1 (initCore (c4Sched 500))).2.currentBalance = 0 := by
    simp only [fuStep, c4Sched, solverParams, initCore, monthlyInterestRate, monthlyFGTSDeposit]
    norm_num
  show (fuLoop (c4Sched 500) (c4Sched 500).termMonths 1 (initCore (c4Sched 500))).1.length = 1
  rw [show (c4Sched 500).termMonths = 2 from rfl]
  rw [fuLoop_eval]
  rw [if_neg (by norm_num), if_neg (by simp only [initCore, c4Sched, solverParams]; norm_num)]
  rw [List.length_cons]
  rw [show (2 : ℕ) - 1 = 1 from rfl, fuLoop_eval]
  rw [if_neg (by norm_num), if_pos (by rw [h1])]
  simp

/-- Once the upper bound has hit the exact threshold `500`, it never moves:
every midpoint below `500` leaves a 2-month schedule, so only the lower bound
rises. -/
theorem c4_bisect_inv :
    ∀ (k : ℕ) (low : ℚ), low < 500 →
      (bisectLoop 1000 1000 12 2 .SAC 1 k low 500).2 = 500 := by
  intro k
  induction k with
  | zero => intro low _; simp [bisectLoop]
  | succ m ih =>
    intro low h5
    have hmid5 : (low + 500) / 2 < 500 := by linarith
    have hlen : (calculateAmortization
        (solverParams 1000 1000 12 2 .SAC ((low + 500) / 2))).installments.length = 2 :=
      c4_len_two _ hmid5
    simp only [bisectLoop]
    rw [if_pos (by rw [hlen]; omega)]
    exact ih _ hmid5

/-- **C4**: the Target-Term Solver is exactly the 20-fold iterate of the
claim's bisection update over `[0, principal]`, returning the final upper
bound; and on the Scenario-4 loan (principal `1000`, `12 %`, `2` months, SAC)
with target `originalTerm / 2 = 1`, the returned extra is `500`: the schedule
run with it has length `1` (within one month of the target), and the schedule
run with it minus the terminal bisection gap `principal / 2^20` has length
`2 > target`. -/
theorem c4_solver_bisection :
    (∀ (pv L rate : ℚ) (n : ℕ) (ty : AmortizationType) (target : ℕ),
      calculateExtraNeeded pv L rate n ty target =
        ((specBisectUpdate pv L rate n ty target)^[20] (0, L)).2) ∧
    calculateExtraNeeded 1000 1000 12 2 .SAC 1 = 500 ∧
    (calculateAmortization
      (c4Sched (calculateExtraNeeded 1000 1000 12 2 .SAC 1))).installments.length = 1 ∧
    (calculateAmortization
      (c4Sched (calculateExtraNeeded 1000 1000 12 2 .SAC 1 - 1000 / 2 ^ 20))).installments.length
      > 1 := by
  have hsolve : calculateExtraNeeded 1000 1000 12 2 .SAC 1 = 500 := by
    simp only [calculateExtraNeeded]
    rw [bisectLoop_eval]
    rw [if_neg (by norm_num : ¬(20 : ℕ) = 0)]
    rw [show ((0 : ℚ) + 1000) / 2 = 500 from by norm_num]
    rw [show solverParams 1000 1000 12 2 .SAC 500 = c4Sched 500 from rfl, c4_len_at_500]
    rw [if_neg (by omega : ¬1 > 1)]
    rw [show (20 : ℕ) - 1 = 19 from rfl]
    exact c4_bisect_inv 19 0 (by norm_num)
  refine ⟨?_, hsolve, ?_, ?_⟩
  · intro pv L rate n ty target
    simp only [calculateExtraNeeded]
    rw [bisectLoop_iterate]
  · rw [hsolve, c4_len_at_500]
  · rw [hsolve, c4_len_two (500 - 1000 / 2 ^ 20) (by norm_num)]
    omega

/-! ## Claim C3: schedule length is antitone in the recurring extra

Helper decompositions of one `financeUtils.ts` loop step, shared with C9. -/

/-- The raw scheduled amortization of one month (`financeUtils.ts`
lines 67-73) as a function of the incoming balance. -/
def scheduledAmortization (p : FUParams) (b : ℚ) : ℚ :=
  match p.type with
  | .SAC => p.loanAmount / (p.termMonths : ℚ)
  | .PRICE => fixedPricePayment p - b * monthlyInterestRate p

/-- The scheduled amortization after the balance cap of
`financeUtils.ts` lines 76-79. -/
def clampedAmortization (p : FUParams) (b : ℚ) : ℚ :=
  if scheduledAmortization p b > b then b else scheduledAmortization p b

/-- The requested extra payment of one month (`financeUtils.ts` lines 81-87):
recurring plus one-time plus, at 24-month boundaries, the accrued FGTS
wallet. -/
def extraOf (p : FUParams) (month : ℕ) (fgtsBal : ℚ) : ℚ :=
  let fgts1 := fgtsBal + monthlyFGTSDeposit p
  let extra0 := p.monthlyExtra + p.oneTimeExtras month
  if p.fgts.useEveryTwoYears = true ∧ month % 24 = 0 then extra0 + fgts1 else extra0

theorem fuStep_currentBalance (p : FUParams) (month : ℕ) (c : FUCore) :
    (fuStep p month c).2.currentBalance =
      c.currentBalance - (clampedAmortization p c.currentBalance +
        min (extraOf p month c.currentFGTSBalance)
          (c.currentBalance - clampedAmortization p c.currentBalance)) := by
  cases htype : p.type <;>
    simp only [fuStep, clampedAmortization, scheduledAmortization, extraOf, htype]

theorem fuStep_totalInterest (p : FUParams) (month : ℕ) (c : FUCore) :
    (fuStep p month c).2.totalInterest =
      c.totalInterest + c.currentBalance * monthlyInterestRate p := rfl

theorem fuStep_fgts (p : FUParams) (month : ℕ) (c : FUCore) :
    (fuStep p month c).2.currentFGTSBalance =
      if p.fgts.useEveryTwoYears = true ∧ month % 24 = 0 then 0
      else c.currentFGTSBalance + monthlyFGTSDeposit p := rfl

/-- Pure arithmetic: the after-extra balance is monotone in the pre-extra
balance `b - a` and antitone in the requested extra `X`. -/
theorem balance_update_mono (b1 b2 a1 a2 X1 X2 : ℚ)
    (hb : b2 - a2 ≤ b1 - a1) (hX : X1 ≤ X2) :
    b2 - (a2 + min X2 (b2 - a2)) ≤ b1 - (a1 + min X1 (b1 - a1)) := by
  rcases le_total X2 (b2 - a2) with h2 | h2 <;> rcases le_total X1 (b1 - a1) with h1 | h1
  · rw [min_eq_left h2, min_eq_left h1]; linarith
  · rw [min_eq_left h2, min_eq_right h1]; linarith
  · rw [min_eq_right h2, min_eq_left h1]; linarith
  · rw [min_eq_right h2, min_eq_right h1]; linarith

/-- With a non-negative monthly rate, the pre-extra balance
`b - clampedAmortization` is monotone in the balance (both systems). -/
theorem clampedAmort_sub_mono (p : FUParams) (hi : 0 ≤ monthlyInterestRate p)
    {b1 b2 : ℚ} (hb : b2 ≤ b1) :
    b2 - clampedAmortization p b2 ≤ b1 - clampedAmortization p b1 := by
  have hmul : b2 * monthlyInterestRate p ≤ b1 * monthlyInterestRate p :=
    mul_le_mul_of_nonneg_right hb hi
  unfold clampedAmortization scheduledAmortization
  cases p.type <;> split_ifs <;> linarith

/-- The pre-extra balance is non-negative (the amortization cap guarantees
it). -/
theorem clampedAmort_sub_nonneg (p : FUParams) (b : ℚ) :
    0 ≤ b - clampedAmortization p b := by
  unfold clampedAmortization
  split_ifs <;> linarith

/-- `monthlyExtra` influences neither the amortization nor the rate. -/
theorem clampedAmortization_extra (p : FUParams) (e : ℚ) :
    clampedAmortization { p with monthlyExtra := e } = clampedAmortization p := rfl

theorem monthlyInterestRate_extra (p : FUParams) (e : ℚ) :
    monthlyInterestRate { p with monthlyExtra := e } = monthlyInterestRate p := rfl

/-- The requested extra is monotone in the recurring extra field. -/
theorem extraOf_mono_extra (p : FUParams) (e1 e2 : ℚ) (he : e1 ≤ e2)
    (month : ℕ) (w : ℚ) :
    extraOf { p with monthlyExtra := e1 } month w ≤
      extraOf { p with monthlyExtra := e2 } month w := by
  simp only [extraOf, monthlyFGTSDeposit]
  split_ifs <;> linarith

/-- One loop step of the schedule with the larger recurring extra, on a
not-larger balance and the same wallet, leaves a not-larger balance. -/
theorem fuStep_balance_mono (p : FUParams) (e1 e2 : ℚ)
    (hi : 0 ≤ monthlyInterestRate p) (he : e1 ≤ e2) (month : ℕ) (c1 c2 : FUCore)
    (hb : c2.currentBalance ≤ c1.currentBalance)
    (hf : c2.currentFGTSBalance = c1.currentFGTSBalance) :
    (fuStep { p with monthlyExtra := e2 } month c2).2.currentBalance ≤
      (fuStep { p with monthlyExtra := e1 } month c1).2.currentBalance := by
  rw [fuStep_currentBalance, fuStep_currentBalance, clampedAmortization_extra,
    clampedAmortization_extra, hf]
  exact balance_update_mono _ _ _ _ _ _
    (clampedAmort_sub_mono p hi hb) (extraOf_mono_extra p e1 e2 he month _)

/-- The wallet update of one step is independent of the recurring extra and of
the balance. -/
theorem fuStep_fgts_congr (p : FUParams) (e1 e2 : ℚ) (month : ℕ) (c1 c2 : FUCore)
    (hf : c2.currentFGTSBalance = c1.currentFGTSBalance) :
    (fuStep { p with monthlyExtra := e2 } month c2).2.currentFGTSBalance =
      (fuStep { p with monthlyExtra := e1 } month c1).2.currentFGTSBalance := by
  simp only [fuStep_fgts, hf, monthlyFGTSDeposit]

/-- Coupled induction for C3: pointwise-dominated runs never produce longer
schedules. -/
theorem fuLoop_length_mono (p : FUParams) (e1 e2 : ℚ)
    (hi : 0 ≤ monthlyInterestRate p) (he : e1 ≤ e2) :
    ∀ (fuel month : ℕ) (c1 c2 : FUCore),
      c2.currentBalance ≤ c1.currentBalance →
      c2.currentFGTSBalance = c1.currentFGTSBalance →
      (fuLoop { p with monthlyExtra := e2 } fuel month c2).1.length ≤
        (fuLoop { p with monthlyExtra := e1 } fuel month c1).1.length := by
  intro fuel
  induction fuel with
  | zero => intro month c1 c2 _ _; simp [fuLoop]
  | succ n ih =>
    intro month c1 c2 hb hf
    by_cases h2 : c2.currentBalance ≤ 0
    · rw [show (fuLoop { p with monthlyExtra := e2 } (n + 1) month c2).1 = [] from by
        simp [fuLoop, h2]]
      simp
    · have h1 : ¬c1.currentBalance ≤ 0 := fun h => h2 (le_trans hb h)
      rw [show (fuLoop { p with monthlyExtra := e2 } (n + 1) month c2).1 =
          (fuStep { p with monthlyExtra := e2 } month c2).1 ::
            (fuLoop { p with monthlyExtra := e2 } n (month + 1)
              (fuStep { p with monthlyExtra := e2 } month c2).2).1 from by
        simp [fuLoop, h2]]
      rw [show (fuLoop { p with monthlyExtra := e1 } (n + 1) month c1).1 =
          (fuStep { p with monthlyExtra := e1 } month c1).1 ::
            (fuLoop { p with monthlyExtra := e1 } n (month + 1)
              (fuStep { p with monthlyExtra := e1 } month c1).2).1 from by
        simp [fuLoop, h1]]
      simp only [List.length_cons]
      exact Nat.succ_le_succ (ih (month + 1) _ _
        (fuStep_balance_mono p e1 e2 hi he month c1 c2 hb hf)
        (fuStep_fgts_congr p e1 e2 month c1 c2 hf))

/-! With a *negative* rate the claim fails: PRICE amortization is
`PMT - interest`, which shrinks as the balance grows, so a larger extra can
keep the balance *below* the point where the amortization cap fires and thereby
lengthen the schedule (see `c3_counterexample`).  The engine-variant
monotonicity machinery follows; its rate hypothesis is `0 ≤ monthlyRate`, the
compounded image of a non-negative annual rate. -/

theorem ite_gt_eq_min (x y : ℚ) : (if x > y then y else x) = min x y := by
  rcases le_or_lt x y with h | h
  · rw [if_neg (not_lt.mpr h), min_eq_left h]
  · rw [if_pos h, min_eq_right h.le]

/-- The raw scheduled amortization of one `engine.ts` month (lines 110-135) as
a function of the incoming balance. -/
def engScheduledAmort (p : SimulationParams) (month : ℕ) (b : ℚ) : ℚ :=
  match p.amortizationSystem with
  | .SAC => loanAmount p / (totalMonths p : ℚ)
  | .PRICE =>
    let pmt :=
      if p.strategyType = .REDUCE_INSTALLMENT then
        b * (p.monthlyRate * (1 + p.monthlyRate) ^ (totalMonths p - month + 1)) /
          ((1 + p.monthlyRate) ^ (totalMonths p - month + 1) - 1)
      else initialPricePMT p
    max (pmt - b * p.monthlyRate) 0

/-- The scheduled amortization after the balance cap of `engine.ts`
lines 138-141, in `min` form. -/
def engClampedAmort (p : SimulationParams) (month : ℕ) (b : ℚ) : ℚ :=
  min (engScheduledAmort p month b) b

/-- The requested extra of one `engine.ts` month (lines 157-159). -/
def engExtra0 (p : SimulationParams) (month : ℕ) : ℚ :=
  p.extraAmortizationMonthly + p.extraAmortizationLumpSums month

theorem engStep_balance_eq (p : SimulationParams) (month : ℕ) (b pv : ℚ) :
    (engStep p month b pv).2.1 =
      if b - (engClampedAmort p month b +
          min (engExtra0 p month) (b - engClampedAmort p month b)) < 0 then 0
      else b - (engClampedAmort p month b +
          min (engExtra0 p month) (b - engClampedAmort p month b)) := by
  cases hsys : p.amortizationSystem <;>
    simp only [engStep, engClampedAmort, engScheduledAmort, engExtra0, hsys,
      ite_gt_eq_min]

/-- Pure arithmetic: `b - min (max (b * d) 0) b` (the pre-extra balance of a
recomputed-annuity month) is monotone on non-negative balances, for every
coefficient `d`. -/
theorem eng_t_mono_linear (d : ℚ) {b1 b2 : ℚ} (h0 : 0 ≤ b2) (hb : b2 ≤ b1) :
    b2 - min (max (b2 * d) 0) b2 ≤ b1 - min (max (b1 * d) 0) b1 := by
  have h01 : 0 ≤ b1 := le_trans h0 hb
  rcases le_total d 0 with hd | hd
  · rw [max_eq_right (mul_nonpos_iff.mpr (Or.inl ⟨h0, hd⟩)),
      max_eq_right (mul_nonpos_iff.mpr (Or.inl ⟨h01, hd⟩)),
      min_eq_left h0, min_eq_left h01]
    linarith
  · rw [max_eq_left (mul_nonneg h0 hd), max_eq_left (mul_nonneg h01 hd)]
    rcases le_total d 1 with hd1 | hd1
    · have hle2 : b2 * d ≤ b2 := by nlinarith
      have hle1 : b1 * d ≤ b1 := by nlinarith
      rw [min_eq_left hle2, min_eq_left hle1]
      nlinarith
    · have hge2 : b2 ≤ b2 * d := by nlinarith
      have hge1 : b1 ≤ b1 * d := by nlinarith
      rw [min_eq_right hge2, min_eq_right hge1]
      linarith

/-- Pure arithmetic: `b - min (max (P - b * r) 0) b` (the pre-extra balance of
a fixed-annuity month) is monotone on non-negative balances when `0 ≤ r`. -/
theorem eng_t_mono_affine (P r : ℚ) (hr : 0 ≤ r) {b1 b2 : ℚ}
    (h0 : 0 ≤ b2) (hb : b2 ≤ b1) :
    b2 - min (max (P - b2 * r) 0) b2 ≤ b1 - min (max (P - b1 * r) 0) b1 := by
  have h01 : 0 ≤ b1 := le_trans h0 hb
  have hmul : b2 * r ≤ b1 * r := mul_le_mul_of_nonneg_right hb hr
  rcases le_total (P - b2 * r) 0 with h2 | h2 <;> rcases le_total (P - b1 * r) 0 with h1 | h1
  · rw [max_eq_right h2, max_eq_right h1, min_eq_left h0, min_eq_left h01]
    linarith
  · have heq : P - b1 * r = 0 := le_antisymm (by linarith) h1
    rw [max_eq_right h2, heq, max_self, min_eq_left h0, min_eq_left h01]
    linarith
  · rw [max_eq_left h2, max_eq_right h1, min_eq_left h01]
    rcases le_total (P - b2 * r) b2 with hm | hm
    · rw [min_eq_left hm]; linarith
    · rw [min_eq_right hm]; linarith
  · rw [max_eq_left h2, max_eq_left h1]
    rcases le_total (P - b2 * r) b2 with hm2 | hm2 <;>
      rcases le_total (P - b1 * r) b1 with hm1 | hm1
    · rw [min_eq_left hm2, min_eq_left hm1]; linarith
    · rw [min_eq_left hm2, min_eq_right hm1]; linarith
    · rw [min_eq_right hm2, min_eq_left hm1]; linarith
    · rw [min_eq_right hm2, min_eq_right hm1]; linarith

/-- With a non-negative monthly rate, the engine's pre-extra balance
`b - engClampedAmort` is monotone on non-negative balances (all three
system/strategy combinations). -/
theorem engClampedAmort_sub_mono (p : SimulationParams) (month : ℕ)
    (hr : 0 ≤ p.monthlyRate) {b1 b2 : ℚ} (h0 : 0 ≤ b2) (hb : b2 ≤ b1) :
    b2 - engClampedAmort p month b2 ≤ b1 - engClampedAmort p month b1 := by
  unfold engClampedAmort engScheduledAmort
  cases hsys : p.amortizationSystem <;> dsimp only
  · rcases le_total (loanAmount p / (totalMonths p : ℚ)) b2 with h2 | h2 <;>
      rcases le_total (loanAmount p / (totalMonths p : ℚ)) b1 with h1 | h1 <;>
      [rw [min_eq_left h2, min_eq_left h1]; rw [min_eq_left h2, min_eq_right h1];
       rw [min_eq_right h2, min_eq_left h1]; rw [min_eq_right h2, min_eq_right h1]] <;>
      linarith
  · by_cases hst : p.strategyType = .REDUCE_INSTALLMENT
    · rw [if_pos hst, if_pos hst]
      have harr : ∀ b : ℚ, b * (p.monthlyRate *
            (1 + p.monthlyRate) ^ (totalMonths p - month + 1)) /
            ((1 + p.monthlyRate) ^ (totalMonths p - month + 1) - 1) - b * p.monthlyRate =
          b * ((p.monthlyRate * (1 + p.monthlyRate) ^ (totalMonths p - month + 1)) /
            ((1 + p.monthlyRate) ^ (totalMonths p - month + 1) - 1) - p.monthlyRate) :=
        fun b => by ring
      rw [harr b2, harr b1]
      exact eng_t_mono_linear _ h0 hb
    · rw [if_neg hst, if_neg hst]
      exact eng_t_mono_affine (initialPricePMT p) p.monthlyRate hr h0 hb

/-- One engine step with the larger recurring extra, on a not-larger balance
(non-negative, or equal to the other run's balance), leaves a not-larger
balance. -/
theorem engStep_balance_mono (p : SimulationParams) (e1 e2 : ℚ)
    (hr : 0 ≤ p.monthlyRate) (he : e1 ≤ e2) (month : ℕ) (b1 b2 pv1 pv2 : ℚ)
    (hb : b2 ≤ b1) (h0or : 0 ≤ b2 ∨ b2 = b1) :
    (engStep { p with extraAmortizationMonthly := e2 } month b2 pv2).2.1 ≤
      (engStep { p with extraAmortizationMonthly := e1 } month b1 pv1).2.1 := by
  rw [engStep_balance_eq, engStep_balance_eq]
  have hca2 : ∀ b, engClampedAmort { p with extraAmortizationMonthly := e2 } month b =
      engClampedAmort p month b := fun b => rfl
  have hca1 : ∀ b, engClampedAmort { p with extraAmortizationMonthly := e1 } month b =
      engClampedAmort p month b := fun b => rfl
  rw [hca2 b2, hca1 b1]
  have hX : engExtra0 { p with extraAmortizationMonthly := e1 } month ≤
      engExtra0 { p with extraAmortizationMonthly := e2 } month := by
    simp only [engExtra0]
    linarith
  have ht : b2 - engClampedAmort p month b2 ≤ b1 - engClampedAmort p month b1 := by
    rcases h0or with h0 | rfl
    · exact engClampedAmort_sub_mono p month hr h0 hb
    · exact le_rfl
  have hinner := balance_update_mono b1 b2 (engClampedAmort p month b1)
    (engClampedAmort p month b2) (engExtra0 { p with extraAmortizationMonthly := e1 } month)
    (engExtra0 { p with extraAmortizationMonthly := e2 } month) ht hX
  split_ifs <;> linarith

/-- Coupled induction for the engine half of C3. -/
theorem engLoop_length_mono (p : SimulationParams) (e1 e2 : ℚ)
    (hr : 0 ≤ p.monthlyRate) (he : e1 ≤ e2) :
    ∀ (fuel month : ℕ) (b1 b2 pv1 pv2 : ℚ), b2 ≤ b1 → (0 ≤ b2 ∨ b2 = b1) →
      (engLoop { p with extraAmortizationMonthly := e2 } fuel month b2 pv2).length ≤
        (engLoop { p with extraAmortizationMonthly := e1 } fuel month b1 pv1).length := by
  intro fuel
  induction fuel with
  | zero => intro month b1 b2 pv1 pv2 _ _; simp [engLoop]
  | succ n ih =>
    intro month b1 b2 pv1 pv2 hb h0or
    by_cases hb2 : b2 ≤ 1 / 100
    · rw [show engLoop { p with extraAmortizationMonthly := e2 } (n + 1) month b2 pv2 = []
        from by simp only [engLoop]; rw [if_pos hb2]]
      simp
    · have hb1 : ¬b1 ≤ 1 / 100 := fun h => hb2 (le_trans hb h)
      rw [show engLoop { p with extraAmortizationMonthly := e2 } (n + 1) month b2 pv2 =
          (engStep { p with extraAmortizationMonthly := e2 } month b2 pv2).1 ::
            engLoop { p with extraAmortizationMonthly := e2 } n (month + 1)
              (engStep { p with extraAmortizationMonthly := e2 } month b2 pv2).2.1
              (engStep { p with extraAmortizationMonthly := e2 } month b2 pv2).2.2 from by
        simp only [engLoop]; rw [if_neg hb2]]
      rw [show engLoop { p with extraAmortizationMonthly := e1 } (n + 1) month b1 pv1 =
          (engStep { p with extraAmortizationMonthly := e1 } month b1 pv1).1 ::
            engLoop { p with extraAmortizationMonthly := e1 } n (month + 1)
              (engStep { p with extraAmortizationMonthly := e1 } month b1 pv1).2.1
              (engStep { p with extraAmortizationMonthly := e1 } month b1 pv1).2.2 from by
        simp only [engLoop]; rw [if_neg hb1]]
      simp only [List.length_cons]
      exact Nat.succ_le_succ (ih (month + 1) _ _ _ _
        (engStep_balance_mono p e1 e2 hr he month b1 b2 pv1 pv2 hb h0or)
        (Or.inl (engStep_conservation { p with extraAmortizationMonthly := e2 }
          month b2 pv2).2))

/-- The C3 counterexample loan: PRICE at a *negative* monthly rate of `-6`
(annual `-7200` under the flat conversion of `financeUtils.ts`), principal
`1000`, term `5` months, a one-time extra of `300` at month `2`, recurring
extra `e`. -/
def c3cParams (e : ℚ) : FUParams :=
  { propertyValue := 1000
    loanAmount := 1000
    annualInterestRate := -7200
    termMonths := 5
    type := .PRICE
    monthlyExtra := e
    oneTimeExtras := fun m => if m = 2 then 300 else 0
    monthlyAppreciationRate := 0
    fgts := { initialBalance := 0, monthlyGrossIncome := 0, useEveryTwoYears := false } }

/-- **C3 (counterexample)**: for the fixed parameter set `c3cParams` and the
non-negative recurring extras `60 ≤ 65`, the schedule with the *larger* extra
is *longer* (5 months versus 4): with extra `60` the month-4 balance meets the
amortization cap exactly and the loan closes, while with extra `65` the
balances from month 2 on differ, the cap does not fire, and the loop runs into
month 5.  Schedule length is not antitone in the extra payment once the rate
is negative. -/
theorem c3_counterexample :
    (0 : ℚ) ≤ 60 ∧ (60 : ℚ) ≤ 65 ∧
    (calculateAmortization (c3cParams 60)).installments.length <
      (calculateAmortization (c3cParams 65)).installments.length := by
  have h601 : (fuStep (c3cParams 60) 1 (initCore (c3cParams 60))).2 =
      { currentBalance := 488740/521, currentPropertyValue := 1000,
        totalPaid := -3093740/521, totalInterest := -6000, currentFGTSBalance := 0 } := by
    simp only [fuStep, c3cParams, initCore, monthlyInterestRate, monthlyFGTSDeposit,
      fixedPricePayment, FUCore.mk.injEq]
    norm_num [min_def]
  have h602 : (fuStep (c3cParams 60) 2
      { currentBalance := 488740/521, currentPropertyValue := 1000,
        totalPaid := -3093740/521, totalInterest := -6000, currentFGTSBalance := 0 }).2 =
      { currentBalance := 493740/521, currentPropertyValue := 1000,
        totalPaid := -6031180/521, totalInterest := -6058440/521,
        currentFGTSBalance := 0 } := by
    simp only [fuStep, c3cParams, initCore, monthlyInterestRate, monthlyFGTSDeposit,
      fixedPricePayment, FUCore.mk.injEq]
    norm_num [min_def]
  have h603 : (fuStep (c3cParams 60) 3
      { currentBalance := 493740/521, currentPropertyValue := 1000,
        totalPaid := -6031180/521, totalInterest := -6058440/521,
        currentFGTSBalance := 0 }).2 =
      { currentBalance := 625040/521, currentPropertyValue := 1000,
        totalPaid := -9124920/521, totalInterest := -9020880/521,
        currentFGTSBalance := 0 } := by
    simp only [fuStep, c3cParams, initCore, monthlyInterestRate, monthlyFGTSDeposit,
      fixedPricePayment, FUCore.mk.injEq]
    norm_num [min_def]
  have h604 : (fuStep (c3cParams 60) 4
      { currentBalance := 625040/521, currentPropertyValue := 1000,
        totalPaid := -9124920/521, totalInterest := -9020880/521,
        currentFGTSBalance := 0 }).2 =
      { currentBalance := 0, currentPropertyValue := 1000,
        totalPaid := -12250120/521, totalInterest := -12771120/521,
        currentFGTSBalance := 0 } := by
    simp only [fuStep, c3cParams, initCore, monthlyInterestRate, monthlyFGTSDeposit,
      fixedPricePayment, FUCore.mk.injEq]
    norm_num [min_def]
  have h651 : (fuStep (c3cParams 65) 1 (initCore (c3cParams 65))).2 =
      { currentBalance := 486135/521, currentPropertyValue := 1000,
        totalPaid := -3091135/521, totalInterest := -6000, currentFGTSBalance := 0 } := by
    simp only [fuStep, c3cParams, initCore, monthlyInterestRate, monthlyFGTSDeposit,
      fixedPricePayment, FUCore.mk.injEq]
    norm_num [min_def]
  have h652 : (fuStep (c3cParams 65) 2
      { currentBalance := 486135/521, currentPropertyValue := 1000,
        totalPaid := -3091135/521, totalInterest := -6000, currentFGTSBalance := 0 }).2 =
      { currentBalance := 504160/521, currentPropertyValue := 1000,
        totalPaid := -6025970/521, totalInterest := -6042810/521,
        currentFGTSBalance := 0 } := by
    simp only [fuStep, c3cParams, initCore, monthlyInterestRate, monthlyFGTSDeposit,
      fixedPricePayment, FUCore.mk.injEq]
    norm_num [min_def]
  have h653 : (fuStep (c3cParams 65) 3
      { currentBalance := 504160/521, currentPropertyValue := 1000,
        totalPaid := -6025970/521, totalInterest := -6042810/521,
        currentFGTSBalance := 0 }).2 =
      { currentBalance := 570335/521, currentPropertyValue := 1000,
        totalPaid := -9117105/521, totalInterest := -9067770/521,
        currentFGTSBalance := 0 } := by
    simp only [fuStep, c3cParams, initCore, monthlyInterestRate, monthlyFGTSDeposit,
      fixedPricePayment, FUCore.mk.injEq]
    norm_num [min_def]
  have h654 : (fuStep (c3cParams 65) 4
      { currentBalance := 570335/521, currentPropertyValue := 1000,
        totalPaid := -9117105/521, totalInterest := -9067770/521,
        currentFGTSBalance := 0 }).2 =
      { currentBalance := 239460/521, currentPropertyValue := 1000,
        totalPaid := -12208240/521, totalInterest := -12489780/521,
        currentFGTSBalance := 0 } := by
    simp only [fuStep, c3cParams, initCore, monthlyInterestRate, monthlyFGTSDeposit,
      fixedPricePayment, FUCore.mk.injEq]
    norm_num [min_def]
  have hlen60 : (calculateAmortization (c3cParams 60)).installments.length = 4 := by
    show (fuLoop (c3cParams 60) (c3cParams 60).termMonths 1 (initCore (c3cParams 60))).1.length = 4
    rw [show (c3cParams 60).termMonths = 5 from rfl]
    rw [fuLoop_eval, if_neg (by norm_num),
      if_neg (by simp only [initCore, c3cParams]; norm_num)]
    rw [List.length_cons, show (5 : ℕ) - 1 = 4 from rfl, h601]
    rw [fuLoop_eval, if_neg (by norm_num), if_neg (by norm_num)]
    rw [List.length_cons, show (4 : ℕ) - 1 = 3 from rfl, h602]
    rw [fuLoop_eval, if_neg (by norm_num), if_neg (by norm_num)]
    rw [List.length_cons, show (3 : ℕ) - 1 = 2 from rfl, h603]
    rw [fuLoop_eval, if_neg (by norm_num), if_neg (by norm_num)]
    rw [List.length_cons, show (2 : ℕ) - 1 = 1 from rfl, h604]
    rw [fuLoop_eval, if_neg (by norm_num), if_pos (by norm_num)]
    simp
  have hlen65 : (calculateAmortization (c3cParams 65)).installments.length = 5 := by
    show (fuLoop (c3cParams 65) (c3cParams 65).termMonths 1 (initCore (c3cParams 65))).1.length = 5
    rw [show (c3cParams 65).termMonths = 5 from rfl]
    rw [fuLoop_eval, if_neg (by norm_num),
      if_neg (by simp only [initCore, c3cParams]; norm_num)]
    rw [List.length_cons, show (5 : ℕ) - 1 = 4 from rfl, h651]
    rw [fuLoop_eval, if_neg (by norm_num), if_neg (by norm_num)]
    rw [List.length_cons, show (4 : ℕ) - 1 = 3 from rfl, h652]
    rw [fuLoop_eval, if_neg (by norm_num), if_neg (by norm_num)]
    rw [List.length_cons, show (3 : ℕ) - 1 = 2 from rfl, h653]
    rw [fuLoop_eval, if_neg (by norm_num), if_neg (by norm_num)]
    rw [List.length_cons, show (2 : ℕ) - 1 = 1 from rfl, h654]
    rw [fuLoop_eval, if_neg (by norm_num), if_neg (by norm_num)]
    rw [List.length_cons, show (1 : ℕ) - 1 = 0 from rfl]
    rw [fuLoop_eval, if_pos rfl]
    simp
  rw [hlen60, hlen65]
  norm_num

/-- **C3 (amended)**: for every fixed parameter set with a *non-negative
interest rate* — the restriction the counterexample forces — and all
non-negative recurring extras `e1 ≤ e2`, the schedule produced with `e2` is
never longer than the one produced with `e1`, in both Schedule Generator
variants (`calculateAmortization` of `financeUtils.ts` and
`FinanceEngine.calculateAmortizationSchedule` of `engine.ts`). -/
theorem c3_length_antitone :
    (∀ (p : FUParams) (e1 e2 : ℚ), 0 ≤ p.annualInterestRate → 0 ≤ e1 → e1 ≤ e2 →
      (calculateAmortization { p with monthlyExtra := e2 }).installments.length ≤
        (calculateAmortization { p with monthlyExtra := e1 }).installments.length) ∧
    (∀ (p : SimulationParams) (e1 e2 : ℚ), 0 ≤ p.monthlyRate → 0 ≤ e1 → e1 ≤ e2 →
      (calculateAmortizationSchedule { p with extraAmortizationMonthly := e2 }).length ≤
        (calculateAmortizationSchedule { p with extraAmortizationMonthly := e1 }).length) := by
  constructor
  · intro p e1 e2 hrate _h1 he
    have hi : 0 ≤ monthlyInterestRate p := by
      unfold monthlyInterestRate
      positivity
    exact fuLoop_length_mono p e1 e2 hi he p.termMonths 1
      (initCore { p with monthlyExtra := e1 }) (initCore { p with monthlyExtra := e2 })
      le_rfl rfl
  · intro p e1 e2 hr _h1 he
    exact engLoop_length_mono p e1 e2 hr he (totalMonths p) 1
      (loanAmount p) (loanAmount p) p.propertyValue p.propertyValue le_rfl (Or.inr rfl)

/-- Witness for `c3_length_antitone`: the Scenario-4 loan (`financeUtils.ts`
variant) and the `c2W` loan (`engine.ts` variant), each with extras `1 ≤ 2`. -/
theorem c3_length_antitone_witness :
    (0 ≤ (c4Sched 0).annualInterestRate ∧ (0 : ℚ) ≤ 1 ∧ (1 : ℚ) ≤ 2 ∧
     (calculateAmortization { c4Sched 0 with monthlyExtra := 2 }).installments.length ≤
       (calculateAmortization { c4Sched 0 with monthlyExtra := 1 }).installments.length) ∧
    (0 ≤ c2W.monthlyRate ∧ (0 : ℚ) ≤ 1 ∧ (1 : ℚ) ≤ 2 ∧
     (calculateAmortizationSchedule { c2W with extraAmortizationMonthly := 2 }).length ≤
       (calculateAmortizationSchedule { c2W with extraAmortizationMonthly := 1 }).length) :=
  ⟨⟨by norm_num [c4Sched, solverParams], by norm_num, by norm_num,
    c3_length_antitone.1 (c4Sched 0) 1 2 (by norm_num [c4Sched, solverParams])
      (by norm_num) (by norm_num)⟩,
   ⟨by norm_num [c2W], by norm_num, by norm_num,
    c3_length_antitone.2 c2W 1 2 (by norm_num [c2W]) (by norm_num) (by norm_num)⟩⟩

/-! ## Claim C9: baseline consistency -/

/-- The base loop's balance update is the schedule's pre-extra balance: the two
loops share the amortization formula and its cap. -/
theorem baseStepBal_eq (p : FUParams) (b : ℚ) :
    baseStepBal (monthlyInterestRate p) (fixedPricePayment p)
        (p.loanAmount / (p.termMonths : ℚ)) p.type b =
      b - clampedAmortization p b := by
  cases htype : p.type <;>
    simp only [baseStepBal, clampedAmortization, scheduledAmortization, htype]

/-- The base loop's balance never goes negative (the amortization cap). -/
theorem baseStepBal_nonneg (i pmt amortSAC : ℚ) (ty : AmortizationType) (b : ℚ) :
    0 ≤ baseStepBal i pmt amortSAC ty b := by
  cases ty <;> simp only [baseStepBal] <;> split_ifs <;> linarith

/-- With a non-negative rate and balance, the base loop only ever adds
interest: its accumulator never decreases. -/
theorem baseLoop_ge (i pmt amortSAC : ℚ) (ty : AmortizationType) (hi : 0 ≤ i) :
    ∀ (fuel : ℕ) (b tI : ℚ), 0 ≤ b → tI ≤ baseLoop i pmt amortSAC ty fuel b tI := by
  intro fuel
  induction fuel with
  | zero => intro b tI _; simp [baseLoop]
  | succ n ih =>
    intro b tI hb
    have hint : 0 ≤ b * i := mul_nonneg hb hi
    simp only [baseLoop]
    split_ifs
    · linarith
    · exact le_trans (by linarith)
        (ih (baseStepBal i pmt amortSAC ty b) (tI + b * i)
          (baseStepBal_nonneg i pmt amortSAC ty b))

/-- The requested extra is non-negative under non-negative inputs. -/
theorem extraOf_nonneg (p : FUParams) (month : ℕ) (w : ℚ)
    (hme : 0 ≤ p.monthlyExtra) (hoc : ∀ m, 0 ≤ p.oneTimeExtras m)
    (hw : 0 ≤ w) (hinc : 0 ≤ p.fgts.monthlyGrossIncome) :
    0 ≤ extraOf p month w := by
  have h1 := hoc month
  have h2 : 0 ≤ p.fgts.monthlyGrossIncome * (8 / 100) :=
    mul_nonneg hinc (by norm_num)
  simp only [extraOf, monthlyFGTSDeposit]
  split_ifs <;> linarith

/-- A loop that enters with a non-positive balance adds no further interest. -/
theorem fuLoop_stopped (p : FUParams) (fuel month : ℕ) (c : FUCore)
    (hb : c.currentBalance ≤ 0) : (fuLoop p fuel month c).2 = c := by
  cases fuel with
  | zero => rfl
  | succ n => simp [fuLoop, hb]

/-- Coupled induction for C9: a schedule run dominated by a base-loop run
(smaller balance, accumulated interest within bounds, non-negative extras)
accumulates no more interest than the base loop. -/
theorem fuLoop_interest_le_base (p : FUParams) (hi : 0 ≤ monthlyInterestRate p)
    (hme : 0 ≤ p.monthlyExtra) (hoc : ∀ m, 0 ≤ p.oneTimeExtras m)
    (hinc : 0 ≤ p.fgts.monthlyGrossIncome) :
    ∀ (fuel month : ℕ) (c : FUCore) (bB tIB : ℚ),
      0 ≤ c.currentFGTSBalance →
      c.currentBalance ≤ bB → 0 ≤ bB → c.totalInterest ≤ tIB →
      (fuLoop p fuel month c).2.totalInterest ≤
        baseLoop (monthlyInterestRate p) (fixedPricePayment p)
          (p.loanAmount / (p.termMonths : ℚ)) p.type fuel bB tIB := by
  intro fuel
  induction fuel with
  | zero => intro month c bB tIB _ _ _ h; simpa [fuLoop, baseLoop] using h
  | succ n ih =>
    intro month c bB tIB hw hble hbB htI
    by_cases hb : c.currentBalance ≤ 0
    · rw [fuLoop_stopped p (n + 1) month c hb]
      exact le_trans htI
        (baseLoop_ge _ _ _ _ hi (n + 1) bB tIB hbB)
    · have hloop : (fuLoop p (n + 1) month c).2 =
          (fuLoop p n (month + 1) (fuStep p month c).2).2 := by
        simp [fuLoop, hb]
      have hint : c.currentBalance * monthlyInterestRate p ≤ bB * monthlyInterestRate p :=
        mul_le_mul_of_nonneg_right hble hi
      have hw1 : 0 ≤ (fuStep p month c).2.currentFGTSBalance := by
        rw [fuStep_fgts]
        have h2 : 0 ≤ monthlyFGTSDeposit p :=
          mul_nonneg hinc (by norm_num)
        split_ifs <;> linarith
      have hX : 0 ≤ extraOf p month c.currentFGTSBalance :=
        extraOf_nonneg p month _ hme hoc hw hinc
      have hstep : (fuStep p month c).2.currentBalance ≤
          baseStepBal (monthlyInterestRate p) (fixedPricePayment p)
            (p.loanAmount / (p.termMonths : ℚ)) p.type bB := by
        rw [baseStepBal_eq]
        refine le_trans ?_ (clampedAmort_sub_mono p hi hble)
        rw [fuStep_currentBalance]
        have hmin : 0 ≤ min (extraOf p month c.currentFGTSBalance)
            (c.currentBalance - clampedAmortization p c.currentBalance) :=
          le_min hX (clampedAmort_sub_nonneg p c.currentBalance)
        linarith
      rw [hloop]
      simp only [baseLoop]
      split_ifs with hstop
      · have hzero : (fuStep p month c).2.currentBalance ≤ 0 := le_trans hstep hstop
        rw [fuLoop_stopped p n (month + 1) _ hzero, fuStep_totalInterest]
        linarith
      · exact ih (month + 1) (fuStep p month c).2 _ _ hw1 hstep
          (baseStepBal_nonneg _ _ _ _ _)
          (by rw [fuStep_totalInterest]; linarith)

/-- **C9 (amended)**: for every parameter set, `totalSaved` is the baseline
total interest minus the actual total interest and `monthsReduced` is the term
minus the actual schedule length; and `totalSaved` is non-negative whenever the
recurring extra, the one-time extras, the FGTS fields *and the interest rate
and principal* are non-negative. -/
theorem c9_baseline_consistency :
    (∀ p : FUParams,
      (calculateAmortization p).totalSaved =
        calculateAmortizationBase p.loanAmount p.annualInterestRate p.termMonths p.type -
          (calculateAmortization p).totalInterest ∧
      (calculateAmortization p).monthsReduced =
        (p.termMonths : ℤ) - (calculateAmortization p).installments.length) ∧
    (∀ p : FUParams, 0 ≤ p.annualInterestRate → 0 ≤ p.loanAmount →
      0 ≤ p.monthlyExtra → (∀ m, 0 ≤ p.oneTimeExtras m) →
      0 ≤ p.fgts.initialBalance → 0 ≤ p.fgts.monthlyGrossIncome →
      0 ≤ (calculateAmortization p).totalSaved) := by
  constructor
  · intro p
    exact ⟨rfl, rfl⟩
  · intro p hrate hloan hme hoc hfgts hinc
    have hi : 0 ≤ monthlyInterestRate p := by
      unfold monthlyInterestRate
      positivity
    have h := fuLoop_interest_le_base p hi hme hoc hinc p.termMonths 1 (initCore p)
      p.loanAmount 0 (by simpa [initCore] using hfgts) (le_refl _) hloan (le_refl 0)
    have hbase : calculateAmortizationBase p.loanAmount p.annualInterestRate p.termMonths p.type =
        baseLoop (monthlyInterestRate p) (fixedPricePayment p)
          (p.loanAmount / (p.termMonths : ℚ)) p.type p.termMonths p.loanAmount 0 := rfl
    have hts : (calculateAmortization p).totalSaved =
        calculateAmortizationBase p.loanAmount p.annualInterestRate p.termMonths p.type -
          (fuLoop p p.termMonths 1 (initCore p)).2.totalInterest := rfl
    rw [hts, hbase]
    linarith

/-- The loan of the C9 counterexample: a *negative* annual rate (-12 %) with a
large recurring extra.  Paying the loan off in month 1 avoids month 2's
negative interest, so the baseline accrues *less* (more negative) interest and
`totalSaved = -5 < 0`. -/
def c9Params : FUParams :=
  { propertyValue := 1000
    loanAmount := 1000
    annualInterestRate := -12
    termMonths := 2
    type := .SAC
    monthlyExtra := 1000
    oneTimeExtras := fun _ => 0
    monthlyAppreciationRate := 0
    fgts := { initialBalance := 0, monthlyGrossIncome := 0, useEveryTwoYears := false } }

/-- **C9 (counterexample)**: with non-negative recurring and one-time extras
but a negative interest rate, `totalSaved` is negative (`-5`), refuting
`totalSaved ≥ 0` as stated. -/
theorem c9_counterexample :
    0 ≤ c9Params.monthlyExtra ∧ (∀ m, 0 ≤ c9Params.oneTimeExtras m) ∧
    (calculateAmortization c9Params).totalSaved < 0 := by
  have hstep : (fuStep c9Params 1 (initCore c9Params)).2.currentBalance = 0 ∧
      (fuStep c9Params 1 (initCore c9Params)).2.totalInterest = -10 := by
    constructor <;>
      · simp only [fuStep, c9Params, initCore, monthlyInterestRate, monthlyFGTSDeposit]
        norm_num [min_def]
  have hmain : (fuLoop c9Params c9Params.termMonths 1 (initCore c9Params)).2.totalInterest
      = -10 := by
    rw [show c9Params.termMonths = 2 from rfl, fuLoop_eval]
    rw [if_neg (by norm_num), if_neg (by simp only [initCore, c9Params]; norm_num)]
    rw [show (2 : ℕ) - 1 = 1 from rfl]
    rw [fuLoop_stopped c9Params 1 2 _ (le_of_eq hstep.1)]
    exact hstep.2
  have hb1 : baseStepBal (monthlyInterestRate c9Params) (fixedPricePayment c9Params)
      (c9Params.loanAmount / (c9Params.termMonths : ℚ)) c9Params.type 1000 = 500 := by
    simp only [baseStepBal, c9Params, monthlyInterestRate]
    norm_num
  have hb2 : baseStepBal (monthlyInterestRate c9Params) (fixedPricePayment c9Params)
      (c9Params.loanAmount / (c9Params.termMonths : ℚ)) c9Params.type 500 = 0 := by
    simp only [baseStepBal, c9Params, monthlyInterestRate]
    norm_num
  have hbase : calculateAmortizationBase c9Params.loanAmount c9Params.annualInterestRate
      c9Params.termMonths c9Params.type = -15 := by
    have hcast : calculateAmortizationBase c9Params.loanAmount c9Params.annualInterestRate
        c9Params.termMonths c9Params.type =
        baseLoop (monthlyInterestRate c9Params) (fixedPricePayment c9Params)
          (c9Params.loanAmount / (c9Params.termMonths : ℚ)) c9Params.type 2 1000 0 := rfl
    rw [hcast, baseLoop_eval, if_neg (by norm_num), hb1, if_neg (by norm_num)]
    rw [show (2 : ℕ) - 1 = 1 from rfl, baseLoop_eval, if_neg (by norm_num), hb2,
      if_pos le_rfl]
    simp only [c9Params, monthlyInterestRate]
    norm_num
  refine ⟨by norm_num [c9Params], fun m => by norm_num [c9Params], ?_⟩
  have hts : (calculateAmortization c9Params).totalSaved =
      calculateAmortizationBase c9Params.loanAmount c9Params.annualInterestRate
        c9Params.termMonths c9Params.type -
        (fuLoop c9Params c9Params.termMonths 1 (initCore c9Params)).2.totalInterest := rfl
  rw [hts, hbase, hmain]
  norm_num

/-- Witness for `c9_baseline_consistency` at the all-non-negative loan `c10W`
(part 1 is also instantiated there). -/
theorem c9_baseline_consistency_witness :
    ((calculateAmortization c10W).totalSaved =
      calculateAmortizationBase c10W.loanAmount c10W.annualInterestRate c10W.termMonths
        c10W.type - (calculateAmortization c10W).totalInterest ∧
     (calculateAmortization c10W).monthsReduced =
      (c10W.termMonths : ℤ) - (calculateAmortization c10W).installments.length) ∧
    (0 ≤ c10W.annualInterestRate ∧ 0 ≤ c10W.loanAmount ∧ 0 ≤ c10W.monthlyExtra ∧
     (∀ m, 0 ≤ c10W.oneTimeExtras m) ∧ 0 ≤ c10W.fgts.initialBalance ∧
     0 ≤ c10W.fgts.monthlyGrossIncome ∧
     0 ≤ (calculateAmortization c10W).totalSaved) :=
  ⟨c9_baseline_consistency.1 c10W,
   ⟨by norm_num [c10W], by norm_num [c10W], by norm_num [c10W],
    fun m => by norm_num [c10W], by norm_num [c10W], by norm_num [c10W],
    c9_baseline_consistency.2 c10W (by norm_num [c10W]) (by norm_num [c10W])
      (by norm_num [c10W]) (fun m => by norm_num [c10W]) (by norm_num [c10W])
      (by norm_num [c10W])⟩⟩

end Mai
